import Mathlib

/-!
Verification of the dialogue-state engine of the satellite-assistant backend.

Strings are modelled as `List Char`; Python dicts keyed by strings as
association lists with insert-or-replace semantics.  Calls that leave the
process (LLM calls, web search, vocabulary data files) are modelled as oracle
parameters; everything else is translated directly from the Python source in
`backend/src/graph/nodes/`.
-/

/-- Characters stripped by Python's str.strip() (the ASCII whitespace ones,
which are the only ones the engine ever feeds it). -/
def isPySpace (c : Char) : Bool :=
  (c == ' ') || (c == '\t') || (c == '\n') || (c == '\r') || (c == '\x0b') || (c == '\x0c')

/-- Python str.strip(): drop whitespace from both ends. -/
def pyStrip (s : List Char) : List Char :=
  ((s.dropWhile isPySpace).reverse.dropWhile isPySpace).reverse

/-- Python str.lower(); identity on the CJK text the engine handles. -/
def pyLower (s : List Char) : List Char :=
  s.map Char.toLower

/-- Python substring test `pat in s`. -/
def listSub (pat : List Char) : List Char → Bool
  | [] => pat.isPrefixOf ([] : List Char)
  | c :: rest => pat.isPrefixOf (c :: rest) || listSub pat rest

/-- Python `s.count(c)` for a single character. -/
def countChar (c : Char) (s : List Char) : Nat :=
  s.count c

/-- Python `s.replace(chr(13) ++ chr(10), chr(10)).replace(chr(13), chr(10))`:
normalise CR LF and lone CR to LF, scanning left to right. -/
def pyNormalize : List Char → List Char
  | [] => []
  | '\r' :: '\n' :: rest => '\n' :: pyNormalize rest
  | '\r' :: rest => '\n' :: pyNormalize rest
  | c :: rest => c :: pyNormalize rest

/-- Helper for `s.split(pat, 1)`: the text before and after the first
occurrence of `pat`, or none when `pat` does not occur. -/
def splitFirst (pat : List Char) : List Char → Option (List Char × List Char)
  | [] => none
  | c :: rest =>
    if pat.isPrefixOf (c :: rest) then some ([], (c :: rest).drop pat.length)
    else match splitFirst pat rest with
      | some (before, after) => some (c :: before, after)
      | none => none

/-- Fuelled worker for `splitAll`; all call sites pass a non-empty delimiter,
for which fuel `s.length + 1` always suffices. -/
def splitAllFuel (pat : List Char) : Nat → List Char → List (List Char)
  | 0, s => [s]
  | fuel + 1, s =>
    match splitFirst pat s with
    | none => [s]
    | some (before, after) => before :: splitAllFuel pat fuel after

/-- Python `s.split(pat)` for a non-empty separator `pat`. -/
def splitAll (pat s : List Char) : List (List Char) :=
  splitAllFuel pat (s.length + 1) s

/-! ## StreamingContentBuffer
Translated from `backend/src/graph/nodes/buffered_streaming_planning_nodes.py`,
class `StreamingContentBuffer`.  The wall-clock values produced by
`time.time()` are threaded through as explicit `Nat` arguments (a time stamp
per call, in arbitrary units); the streaming callback is modelled by
returning the list of chunks passed to it, in order. -/

/-- One chunk handed to the streaming callback (the `content` and `is_table`
fields of the dict built in `_send_table` / `_send_buffer`). -/
structure StreamChunk where
  content : List Char
  is_table : Bool
deriving Repr, DecidableEq

structure StreamingContentBuffer where
  min_chunk_size : Nat
  max_buffer_time : Nat
  buffer : List Char
  full_content : List Char
  last_send_time : Nat
  chunk_count : Nat
  in_table : Bool
  table_buffer : List Char
  table_line_count : Nat
deriving Repr, DecidableEq

/-- `StreamingContentBuffer.__init__` (with a callback installed). -/
def StreamingContentBuffer.init (min_chunk_size max_buffer_time now : Nat) :
    StreamingContentBuffer :=
  { min_chunk_size := min_chunk_size
    max_buffer_time := max_buffer_time
    buffer := []
    full_content := []
    last_send_time := now
    chunk_count := 0
    in_table := false
    table_buffer := []
    table_line_count := 0 }

/-- `_send_table`: emit the table buffer as one chunk when it is non-empty. -/
def StreamingContentBuffer.send_table (b : StreamingContentBuffer) :
    StreamingContentBuffer × List StreamChunk :=
  if b.table_buffer ≠ [] then
    ({ b with table_buffer := [], table_line_count := 0 },
     [{ content := b.table_buffer, is_table := true }])
  else (b, [])

/-- `_send_buffer`: emit the ordinary buffer as one chunk when it is non-empty. -/
def StreamingContentBuffer.send_buffer (b : StreamingContentBuffer) (now : Nat) :
    StreamingContentBuffer × List StreamChunk :=
  if b.buffer ≠ [] then
    ({ b with buffer := [], last_send_time := now, chunk_count := 0 },
     [{ content := b.buffer, is_table := false }])
  else (b, [])

/-- The table-separator marker `"| ---"` detected in `add_content`. -/
def tableSepMarker : List Char := ['|', ' ', '-', '-', '-']

/-- A blank-line pair (two consecutive newlines). -/
def nlnl : List Char := ['\n', '\n']

/-- `add_content`: the chunk re-aggregation step. -/
def StreamingContentBuffer.add_content (b : StreamingContentBuffer) (now : Nat)
    (chunk : List Char) : StreamingContentBuffer × List StreamChunk :=
  let c := pyNormalize chunk
  let b := { b with full_content := b.full_content ++ c }
  if listSub tableSepMarker c && !b.in_table then
    -- table start: flush any pending ordinary buffer, then open the table buffer
    let b := { b with in_table := true }
    let (b, out) := if b.buffer ≠ [] then b.send_buffer now else (b, [])
    let b := { b with table_buffer := b.buffer ++ c
                      buffer := []
                      table_line_count := countChar '\n' c }
    (b, out)
  else if b.in_table then
    let b := { b with table_buffer := b.table_buffer ++ c
                      table_line_count := b.table_line_count + countChar '\n' c }
    if listSub nlnl b.table_buffer ||
        (c.contains '\n' && !(['|'].isPrefixOf (pyStrip c)) && b.table_line_count ≥ 3) then
      -- table end: emit the table, then re-buffer what follows the blank-line pair
      let b := { b with in_table := false }
      let (b, out) := b.send_table
      match splitFirst nlnl c with
      | some (_, after) => ({ b with buffer := nlnl ++ after }, out)
      | none => (b, out)
    else (b, [])
  else
    let b := { b with buffer := b.buffer ++ c, chunk_count := b.chunk_count + 1 }
    let shouldSend := b.buffer.length ≥ b.min_chunk_size ||
        now - b.last_send_time ≥ b.max_buffer_time ||
        listSub nlnl b.buffer ||
        b.chunk_count ≥ 10
    if shouldSend then b.send_buffer now else (b, [])

/-- `flush`: force out whatever remains in either buffer. -/
def StreamingContentBuffer.flush (b : StreamingContentBuffer) (now : Nat) :
    StreamingContentBuffer × List StreamChunk :=
  let (b1, out1) := if b.table_buffer ≠ [] then b.send_table else (b, [])
  let (b2, out2) := if b1.buffer ≠ [] then b1.send_buffer now else (b1, [])
  (b2, out1 ++ out2)

/-- Feed a sequence of timed fragments through `add_content`. -/
def StreamingContentBuffer.runAdds (b : StreamingContentBuffer) :
    List (Nat × List Char) → StreamingContentBuffer × List StreamChunk
  | [] => (b, [])
  | (t, chunk) :: rest =>
    let (b1, out1) := b.add_content t chunk
    let (b2, out2) := b1.runAdds rest
    (b2, out1 ++ out2)

/-- A fresh buffer fed a whole fragment sequence followed by one `flush`. -/
def runBuffered (min_chunk_size max_buffer_time t0 : Nat)
    (inputs : List (Nat × List Char)) (endTime : Nat) :
    StreamingContentBuffer × List StreamChunk :=
  let b0 := StreamingContentBuffer.init min_chunk_size max_buffer_time t0
  let (b1, out1) := b0.runAdds inputs
  let (b2, out2) := b1.flush endTime
  (b2, out1 ++ out2)

/-- Concatenation of the content fields of a chunk list. -/
def chunksContent (l : List StreamChunk) : List Char :=
  (l.map StreamChunk.content).flatten


lemma pyNormalize_of_no_cr : ∀ s : List Char, s.contains '\r' = false → pyNormalize s = s := by
  intro s
  induction s with
  | nil => intro _; rfl
  | cons c rest ih =>
    intro h
    rw [List.contains_cons] at h
    have hc : ¬ (c = '\r') := by
      intro hh
      subst hh
      simp at h
    have hrest : rest.contains '\r' = false := by
      rcases Bool.or_eq_false_iff.mp h with ⟨_, h2⟩
      exact h2
    have hstep : pyNormalize (c :: rest) = c :: pyNormalize rest := by
      rw [pyNormalize.eq_def]
      cases rest with
      | nil => simp [hc]
      | cons d r =>
        by_cases hd : d = '\n' <;> simp [hc, hd]
    rw [hstep, ih hrest]

lemma splitFirst_eq_none_of_not_sub (pat : List Char) :
    ∀ s : List Char, listSub pat s = false → splitFirst pat s = none := by
  intro s
  induction s with
  | nil => intro _; rfl
  | cons c rest ih =>
    intro h
    rw [listSub] at h
    rcases Bool.or_eq_false_iff.mp h with ⟨h1, h2⟩
    rw [splitFirst]
    simp only [h1]
    rw [ih h2]
    simp

def SCBInv (b : StreamingContentBuffer) : Prop :=
  (b.in_table = false → b.table_buffer = []) ∧ (b.in_table = true → b.buffer = [])

lemma add_content_step (b : StreamingContentBuffer) (now : Nat) (chunk : List Char)
    (hcr : chunk.contains '\r' = false) (hnb : listSub nlnl chunk = false)
    (hinv : SCBInv b) :
    SCBInv (b.add_content now chunk).1 ∧
      chunksContent (b.add_content now chunk).2 ++ (b.add_content now chunk).1.table_buffer
        ++ (b.add_content now chunk).1.buffer
      = b.table_buffer ++ b.buffer ++ chunk := by
  obtain ⟨hi1, hi2⟩ := hinv
  unfold StreamingContentBuffer.add_content
  rw [pyNormalize_of_no_cr chunk hcr]
  cases hit : b.in_table with
  | false =>
    have htb : b.table_buffer = [] := hi1 hit
    simp only [hit, Bool.not_false, Bool.and_true, Bool.false_eq_true, if_false]
    by_cases hts : listSub tableSepMarker chunk = true
    · simp only [hts, if_true]
      by_cases hbuf : b.buffer = []
      · simp [StreamingContentBuffer.send_buffer, hbuf, SCBInv, chunksContent, htb]
      · simp [StreamingContentBuffer.send_buffer, hbuf, SCBInv, chunksContent, htb]
    · simp only [Bool.not_eq_true] at hts
      simp only [hts, Bool.false_eq_true, if_false]
      split
      · simp only [StreamingContentBuffer.send_buffer]
        split <;> simp [SCBInv, chunksContent, htb]
      · simp [SCBInv, chunksContent, htb]
  | true =>
    have hbuf : b.buffer = [] := hi2 hit
    simp only [hit, Bool.not_true, Bool.and_false, Bool.false_eq_true, if_false, if_true]
    rw [splitFirst_eq_none_of_not_sub nlnl chunk hnb]
    split
    · simp only [StreamingContentBuffer.send_table]
      split <;> simp_all [SCBInv, chunksContent]
    · simp [SCBInv, chunksContent, hbuf]

lemma runAdds_spec : ∀ (inputs : List (Nat × List Char)) (b : StreamingContentBuffer),
    (∀ p ∈ inputs, p.2.contains '\r' = false ∧ listSub nlnl p.2 = false) →
    SCBInv b →
    SCBInv (b.runAdds inputs).1 ∧
      chunksContent (b.runAdds inputs).2 ++ (b.runAdds inputs).1.table_buffer
        ++ (b.runAdds inputs).1.buffer
      = b.table_buffer ++ b.buffer ++ (inputs.map Prod.snd).flatten := by
  intro inputs
  induction inputs with
  | nil => intro b _ hinv; simpa [StreamingContentBuffer.runAdds, chunksContent] using hinv
  | cons p rest ih =>
    intro b h hinv
    obtain ⟨hp, hrest⟩ : (p.2.contains '\r' = false ∧ listSub nlnl p.2 = false) ∧
        ∀ q ∈ rest, q.2.contains '\r' = false ∧ listSub nlnl q.2 = false := by
      constructor
      · exact h p (List.mem_cons_self p rest)
      · intro q hq; exact h q (List.mem_cons_of_mem p hq)
    obtain ⟨hstep_inv, hstep_eq⟩ := add_content_step b p.1 p.2 hp.1 hp.2 hinv
    obtain ⟨hih_inv, hih_eq⟩ := ih (b.add_content p.1 p.2).1 hrest hstep_inv
    refine ⟨?_, ?_⟩
    · cases p with
      | mk t c => simpa [StreamingContentBuffer.runAdds] using hih_inv
    · cases p with
      | mk t c =>
        simp only [StreamingContentBuffer.runAdds, List.map_cons, List.flatten_cons]
        simp only [chunksContent, List.map_append, List.flatten_append] at hih_eq hstep_eq ⊢
        revert hstep_eq hih_eq
        generalize (List.map StreamChunk.content (b.add_content t c).2).flatten = O1
        generalize (List.map StreamChunk.content ((b.add_content t c).1.runAdds rest).2).flatten = O2
        generalize ((b.add_content t c).1.runAdds rest).1.table_buffer = TB2
        generalize ((b.add_content t c).1.runAdds rest).1.buffer = B2
        generalize (b.add_content t c).1.table_buffer = TB1
        generalize (b.add_content t c).1.buffer = B1
        generalize (List.map Prod.snd rest).flatten = R
        intro hstep_eq hih_eq
        calc O1 ++ O2 ++ TB2 ++ B2 = O1 ++ (O2 ++ TB2 ++ B2) := by simp [List.append_assoc]
          _ = O1 ++ (TB1 ++ B1 ++ R) := by rw [hih_eq]
          _ = O1 ++ TB1 ++ B1 ++ R := by simp [List.append_assoc]
          _ = b.table_buffer ++ b.buffer ++ c ++ R := by rw [hstep_eq]
          _ = b.table_buffer ++ b.buffer ++ (c ++ R) := by simp [List.append_assoc]

lemma flush_content (b : StreamingContentBuffer) (now : Nat) :
    chunksContent (b.flush now).2 = b.table_buffer ++ b.buffer := by
  unfold StreamingContentBuffer.flush
  by_cases htb : b.table_buffer = [] <;> by_cases hbuf : b.buffer = [] <;>
    simp [htb, hbuf, StreamingContentBuffer.send_table, StreamingContentBuffer.send_buffer,
      chunksContent]

lemma chunksContent_append (l1 l2 : List StreamChunk) :
    chunksContent (l1 ++ l2) = chunksContent l1 ++ chunksContent l2 := by
  simp [chunksContent]

/-- C1 (amended): for every fragment sequence in which no fragment contains a
carriage return or a blank-line pair, the concatenation of the content fields
of all chunks passed to the streaming callback (across add_content and the
final flush) equals the concatenation of the input fragments.  The original
claim, quantified over all fragment sequences, fails: see
c1_roundtrip_counterexample. -/
theorem c1_roundtrip_amended (min_chunk_size max_buffer_time t0 endTime : Nat)
    (inputs : List (Nat × List Char))
    (h : ∀ p ∈ inputs, p.2.contains '\r' = false ∧ listSub nlnl p.2 = false) :
    chunksContent (runBuffered min_chunk_size max_buffer_time t0 inputs endTime).2
      = (inputs.map Prod.snd).flatten := by
  unfold runBuffered
  have hinv0 : SCBInv (StreamingContentBuffer.init min_chunk_size max_buffer_time t0) := by
    constructor <;> intro _ <;> rfl
  obtain ⟨_, heq⟩ := runAdds_spec inputs _ h hinv0
  rw [chunksContent_append, flush_content, ← List.append_assoc, heq]
  rfl

/-- C1 (counterexample): the round-trip claim as stated is false.  After the
fragment containing the table marker, a table-closing fragment containing a
blank-line pair is emitted once inside the table chunk and then re-buffered
after the pair by add_content (line 99-101 of
buffered_streaming_planning_nodes.py), so the trailing text is emitted twice. -/
theorem c1_roundtrip_counterexample :
    chunksContent (runBuffered 20 300 0 [(0, ("| ---\n").data), (0, ("x\n\ny").data)] 0).2
      ≠ (([(0, ("| ---\n").data), (0, ("x\n\ny").data)].map Prod.snd).flatten : List Char) := by
  decide

theorem c1_roundtrip_amended_witness :
    (∀ p ∈ [((0 : Nat), ("hello ").data), (5, ("| --- |\n| 1 |\n").data)],
        (p.2).contains '\r' = false ∧ listSub nlnl p.2 = false) ∧
    chunksContent (runBuffered 20 300 0
        [((0 : Nat), ("hello ").data), (5, ("| --- |\n| 1 |\n").data)] 400).2
      = (([((0 : Nat), ("hello ").data), (5, ("| --- |\n| 1 |\n").data)].map Prod.snd).flatten) :=
  ⟨by decide, c1_roundtrip_amended 20 300 0 400 _ (by decide)⟩

lemma send_buffer_chunks_nonempty (b : StreamingContentBuffer) (now : Nat) :
    ∀ ch ∈ (b.send_buffer now).2, ch.content ≠ [] := by
  unfold StreamingContentBuffer.send_buffer
  split <;> simp_all

lemma send_table_chunks_nonempty (b : StreamingContentBuffer) :
    ∀ ch ∈ b.send_table.2, ch.content ≠ [] := by
  unfold StreamingContentBuffer.send_table
  split <;> simp_all

lemma add_content_chunks_nonempty (b : StreamingContentBuffer) (now : Nat) (chunk : List Char) :
    ∀ ch ∈ (b.add_content now chunk).2, ch.content ≠ [] := by
  intro ch hch
  unfold StreamingContentBuffer.add_content at hch
  dsimp only at hch
  split at hch
  · split at hch
    · exact send_buffer_chunks_nonempty _ _ ch hch
    · simp at hch
  · split at hch
    · split at hch
      · split at hch <;> exact send_table_chunks_nonempty _ ch hch
      · simp at hch
    · split at hch
      · exact send_buffer_chunks_nonempty _ _ ch hch
      · simp at hch

lemma flush_chunks_nonempty (b : StreamingContentBuffer) (now : Nat) :
    ∀ ch ∈ (b.flush now).2, ch.content ≠ [] := by
  intro ch hch
  unfold StreamingContentBuffer.flush at hch
  dsimp only at hch
  simp only [List.mem_append] at hch
  rcases hch with hch | hch <;>
    · repeat' split at hch
      all_goals first
        | exact send_table_chunks_nonempty _ ch hch
        | exact send_buffer_chunks_nonempty _ _ ch hch
        | simp at hch

lemma runAdds_chunks_nonempty (inputs : List (Nat × List Char)) :
    ∀ (b : StreamingContentBuffer), ∀ ch ∈ (b.runAdds inputs).2, ch.content ≠ [] := by
  induction inputs with
  | nil => intro b ch hch; simp [StreamingContentBuffer.runAdds] at hch
  | cons p rest ih =>
    intro b ch hch
    cases p with
    | mk t c =>
      simp only [StreamingContentBuffer.runAdds, List.mem_append] at hch
      rcases hch with hch | hch
      · exact add_content_chunks_nonempty b t c ch hch
      · exact ih _ ch hch

/-- C10: the stream buffer never emits an empty chunk: for every input
sequence, every parameterisation and every point including the final flush,
every chunk passed to the streaming callback has non-empty content, because
_send_buffer and _send_table only fire when their buffer is non-empty and
flush on empty buffers emits nothing. -/
theorem c10_no_empty_chunk (min_chunk_size max_buffer_time t0 endTime : Nat)
    (inputs : List (Nat × List Char)) (ch : StreamChunk)
    (hch : ch ∈ (runBuffered min_chunk_size max_buffer_time t0 inputs endTime).2) :
    ch.content ≠ [] := by
  unfold runBuffered at hch
  simp only [List.mem_append] at hch
  rcases hch with hch | hch
  · exact runAdds_chunks_nonempty inputs _ ch hch
  · exact flush_chunks_nonempty _ _ ch hch

theorem c10_no_empty_chunk_witness :
    ({ content := ("this chunk is long enough").data, is_table := false } : StreamChunk) ∈
      (runBuffered 20 300 0 [((0 : Nat), ("this chunk is long enough").data)] 0).2 ∧
    ({ content := ("this chunk is long enough").data, is_table := false } : StreamChunk).content ≠ [] :=
  ⟨by decide, c10_no_empty_chunk 20 300 0 0 [((0 : Nat), ("this chunk is long enough").data)] _ (by decide)⟩

inductive APIStreamEvent where
  | content (now : Nat) (chunk : List Char)
  | failure
deriving Repr, DecidableEq

structure APIStreamResult where
  success : Bool
  flush_called : Bool
  emitted : List StreamChunk
  final_buffer : List Char
  final_table_buffer : List Char
deriving Repr, DecidableEq

def apiStreamGo (b : StreamingContentBuffer) (rawAcc : List Char) (endTime : Nat) :
    List APIStreamEvent → APIStreamResult
  | [] =>
    let (b2, out) := b.flush endTime
    { success := rawAcc ≠ []
      flush_called := true
      emitted := out
      final_buffer := b2.buffer
      final_table_buffer := b2.table_buffer }
  | APIStreamEvent.content t c :: rest =>
    let (b1, out1) := b.add_content t c
    let r := apiStreamGo b1 (rawAcc ++ c) endTime rest
    { r with emitted := out1 ++ r.emitted }
  | APIStreamEvent.failure :: _ =>
    { success := false
      flush_called := false
      emitted := []
      final_buffer := b.buffer
      final_table_buffer := b.table_buffer }

def call_deepseek_streaming_api_buffered (events : List APIStreamEvent) (endTime : Nat) :
    APIStreamResult :=
  apiStreamGo (StreamingContentBuffer.init 10 300 0) [] endTime events

/-- C9: evaluating the streaming call at a stream that fails mid-stream (a
timeout, connection error or cancellation raised by the response iteration):
the flush on line 248 is never reached because control jumps to the except
handlers on lines 257-262, so the buffered content (here the 2-character
fragment, below the 10-character minimum chunk size) is silently dropped. -/
theorem c9_flush_skipped_on_midstream_failure :
    (call_deepseek_streaming_api_buffered
        [APIStreamEvent.content 0 ("hi").data, APIStreamEvent.failure] 0).flush_called = false ∧
    (call_deepseek_streaming_api_buffered
        [APIStreamEvent.content 0 ("hi").data, APIStreamEvent.failure] 0).final_buffer = ("hi").data ∧
    (call_deepseek_streaming_api_buffered
        [APIStreamEvent.content 0 ("hi").data, APIStreamEvent.failure] 0).emitted = [] := by
  decide

theorem c9_flush_called_on_normal_end (events : List APIStreamEvent)
    (h : APIStreamEvent.failure ∉ events) :
    ∀ b rawAcc endTime, (apiStreamGo b rawAcc endTime events).flush_called = true := by
  induction events with
  | nil => intro b rawAcc endTime; rfl
  | cons e rest ih =>
    intro b rawAcc endTime
    cases e with
    | content t c =>
      have hrest : APIStreamEvent.failure ∉ rest := fun hm => h (List.mem_cons_of_mem _ hm)
      simpa [apiStreamGo] using ih hrest _ _ _
    | failure => exact absurd (List.mem_cons_self _ _) h

/-! ## ParameterUncertaintyCalculator
Translated from `backend/src/graph/nodes/uncertainty_calculator.py`.  The three
collaborator signals (vocabulary lookup `_check_knowledge_base`, which reads an
external JSON vocabulary, web search `_check_web_search`, LLM judgment
`_check_llm_professional`) are modelled as boolean oracle functions of the
stripped target text.  The weighted score is computed in exact rationals;
every reachable score is a multiple of 1/10, on which Python's round(x, 2)
is the identity, so the rounding on line 114 is dropped.  The matched_terms
and confidence_level fields play no role in any claim and are omitted. -/

/-- Weight of the knowledge-base signal (`self.weights["knowledge_base"]`). -/
def weight_knowledge_base : ℚ := 2/10

/-- Weight of the web-search signal (`self.weights["web_search"]`). -/
def weight_web_search : ℚ := 3/10

/-- Weight of the LLM-judgment signal (`self.weights["llm_judgment"]`). -/
def weight_llm_judgment : ℚ := 5/10

/-- The fixed clarification threshold (`self.threshold = 0.5`). -/
def uncertainty_threshold : ℚ := 1/2

/-- Python `1 if b else 0`. -/
def boolToRat (b : Bool) : ℚ := if b then 1 else 0

/-- The result dict of calculate_monitoring_target_uncertainty (score, decision
and the per-signal breakdown from its details dict). -/
structure MonitoringTargetVerdict where
  uncertainty_score : ℚ
  needs_clarification : Bool
  existence : Bool
  knowledge_base_match : Bool
  web_search_match : Bool
  llm_professional : Bool
deriving Repr, DecidableEq

/-- The early return for an absent or blank target (lines 62-74). -/
def emptyTargetVerdict : MonitoringTargetVerdict :=
  { uncertainty_score := 1
    needs_clarification := true
    existence := false
    knowledge_base_match := false
    web_search_match := false
    llm_professional := false }

/-- `calculate_monitoring_target_uncertainty` (lines 39-125). -/
def calculate_monitoring_target_uncertainty (target_text : Option (List Char))
    (kb_check web_check llm_check : List Char → Bool)
    (enable_web_search enable_llm : Bool) : MonitoringTargetVerdict :=
  match target_text with
  | none => emptyTargetVerdict
  | some t0 =>
    if pyStrip t0 = [] then emptyTargetVerdict
    else
      let t := pyStrip t0
      let kb_match := kb_check t
      let web_match := enable_web_search && web_check t
      let llm_professional := enable_llm && llm_check t
      let clarity_score := weight_knowledge_base * boolToRat kb_match
        + weight_web_search * boolToRat web_match
        + weight_llm_judgment * boolToRat llm_professional
      let uncertainty_score := 1 - clarity_score
      { uncertainty_score := uncertainty_score
        needs_clarification := decide (uncertainty_score > uncertainty_threshold)
        existence := true
        knowledge_base_match := kb_match
        web_search_match := web_match
        llm_professional := llm_professional }

/-- C2: the gate returns uncertainty = 1 − (w_kb·kb + w_web·web + w_llm·llm)
over the three fixed weights, which sum to 1; it decides clarify exactly when
uncertainty > 0.5; and an absent or blank target scores uncertainty 1.0 and is
always marked as needing clarification. -/
theorem c2_uncertainty_gate_formula :
    weight_knowledge_base + weight_web_search + weight_llm_judgment = 1 ∧
    ∀ (target_text : Option (List Char)) (kb_check web_check llm_check : List Char → Bool)
      (enable_web_search enable_llm : Bool),
      (calculate_monitoring_target_uncertainty target_text kb_check web_check llm_check
          enable_web_search enable_llm).uncertainty_score
        = 1 - (weight_knowledge_base * boolToRat (calculate_monitoring_target_uncertainty
                target_text kb_check web_check llm_check enable_web_search
                enable_llm).knowledge_base_match
            + weight_web_search * boolToRat (calculate_monitoring_target_uncertainty
                target_text kb_check web_check llm_check enable_web_search
                enable_llm).web_search_match
            + weight_llm_judgment * boolToRat (calculate_monitoring_target_uncertainty
                target_text kb_check web_check llm_check enable_web_search
                enable_llm).llm_professional) ∧
      ((calculate_monitoring_target_uncertainty target_text kb_check web_check llm_check
          enable_web_search enable_llm).needs_clarification = true ↔
        (calculate_monitoring_target_uncertainty target_text kb_check web_check llm_check
          enable_web_search enable_llm).uncertainty_score > 1/2) ∧
      ((target_text = none ∨ ∃ t0, target_text = some t0 ∧ pyStrip t0 = []) →
        (calculate_monitoring_target_uncertainty target_text kb_check web_check llm_check
            enable_web_search enable_llm).uncertainty_score = 1 ∧
          (calculate_monitoring_target_uncertainty target_text kb_check web_check llm_check
            enable_web_search enable_llm).needs_clarification = true) := by
  refine ⟨by norm_num [weight_knowledge_base, weight_web_search, weight_llm_judgment], ?_⟩
  intro target_text kb_check web_check llm_check enable_web_search enable_llm
  cases target_text with
  | none =>
    refine ⟨?_, ?_, fun _ => ⟨rfl, rfl⟩⟩
    · simp [calculate_monitoring_target_uncertainty, emptyTargetVerdict, boolToRat]
    · simp [calculate_monitoring_target_uncertainty, emptyTargetVerdict]
      norm_num
  | some t0 =>
    by_cases ht : pyStrip t0 = []
    · refine ⟨?_, ?_, fun _ => ?_⟩
      · simp [calculate_monitoring_target_uncertainty, ht, emptyTargetVerdict, boolToRat]
      · simp [calculate_monitoring_target_uncertainty, ht, emptyTargetVerdict]
        norm_num
      · exact ⟨by simp [calculate_monitoring_target_uncertainty, ht, emptyTargetVerdict],
          by simp [calculate_monitoring_target_uncertainty, ht, emptyTargetVerdict]⟩
    · refine ⟨?_, ?_, ?_⟩
      · simp [calculate_monitoring_target_uncertainty, ht]
      · simp [calculate_monitoring_target_uncertainty, ht, uncertainty_threshold,
          decide_eq_true_iff]
      · rintro (h | ⟨t1, ht1, hstrip⟩)
        · exact absurd h (by simp)
        · rw [Option.some_inj] at ht1
          subst ht1
          exact absurd hstrip ht

/-- C2 witness: a concrete blank target scores 1.0 and clarify, and a concrete
present target obeys the formula. -/
theorem c2_uncertainty_gate_formula_witness :
    (calculate_monitoring_target_uncertainty (some (" ").data) (fun _ => true)
        (fun _ => true) (fun _ => true) true true).uncertainty_score = 1 ∧
      (calculate_monitoring_target_uncertainty (some (" ").data) (fun _ => true)
        (fun _ => true) (fun _ => true) true true).needs_clarification = true :=
  (c2_uncertainty_gate_formula.2 (some (" ").data) (fun _ => true) (fun _ => true)
    (fun _ => true) true true).2.2 (Or.inr ⟨(" ").data, rfl, by decide⟩)

lemma boolToRat_mono {a b : Bool} (h : a = true → b = true) : boolToRat a ≤ boolToRat b := by
  cases a with
  | false => cases b <;> simp [boolToRat]
  | true => rw [h rfl]

lemma and_signal_mono {e a b : Bool} (h : a = true → b = true) :
    (e && a) = true → (e && b) = true := by
  intro hea
  rcases Bool.and_eq_true_iff.mp hea with ⟨he, ha⟩
  exact Bool.and_eq_true_iff.mpr ⟨he, h ha⟩

/-- C7: with the three collaborator signals held fixed the gate is a pure
function of them (two identical runs agree), and the accept decision is
monotone: pointwise raising the signals never lowers clarity, so uncertainty
does not increase and an accept never becomes a clarify. -/
theorem c7_gate_deterministic_and_monotone
    (target_text : Option (List Char)) (kb web llm kb2 web2 llm2 : Bool)
    (enable_web_search enable_llm : Bool)
    (hkb : kb = true → kb2 = true) (hweb : web = true → web2 = true)
    (hllm : llm = true → llm2 = true) :
    (calculate_monitoring_target_uncertainty target_text (fun _ => kb) (fun _ => web)
        (fun _ => llm) enable_web_search enable_llm
      = calculate_monitoring_target_uncertainty target_text (fun _ => kb) (fun _ => web)
        (fun _ => llm) enable_web_search enable_llm) ∧
    (calculate_monitoring_target_uncertainty target_text (fun _ => kb2) (fun _ => web2)
        (fun _ => llm2) enable_web_search enable_llm).uncertainty_score
      ≤ (calculate_monitoring_target_uncertainty target_text (fun _ => kb) (fun _ => web)
        (fun _ => llm) enable_web_search enable_llm).uncertainty_score ∧
    ((calculate_monitoring_target_uncertainty target_text (fun _ => kb) (fun _ => web)
        (fun _ => llm) enable_web_search enable_llm).needs_clarification = false →
      (calculate_monitoring_target_uncertainty target_text (fun _ => kb2) (fun _ => web2)
        (fun _ => llm2) enable_web_search enable_llm).needs_clarification = false) := by
  refine ⟨rfl, ?_⟩
  have t1 : weight_knowledge_base * boolToRat kb ≤ weight_knowledge_base * boolToRat kb2 :=
    mul_le_mul_of_nonneg_left (boolToRat_mono hkb) (by norm_num [weight_knowledge_base])
  have t2 : weight_web_search * boolToRat (enable_web_search && web)
      ≤ weight_web_search * boolToRat (enable_web_search && web2) :=
    mul_le_mul_of_nonneg_left (boolToRat_mono (and_signal_mono hweb))
      (by norm_num [weight_web_search])
  have t3 : weight_llm_judgment * boolToRat (enable_llm && llm)
      ≤ weight_llm_judgment * boolToRat (enable_llm && llm2) :=
    mul_le_mul_of_nonneg_left (boolToRat_mono (and_signal_mono hllm))
      (by norm_num [weight_llm_judgment])
  cases target_text with
  | none =>
    refine ⟨le_refl _, fun h => ?_⟩
    exact absurd h (by simp [calculate_monitoring_target_uncertainty, emptyTargetVerdict])
  | some t0 =>
    by_cases ht : pyStrip t0 = []
    · refine ⟨?_, fun h => ?_⟩
      · simp [calculate_monitoring_target_uncertainty, ht]
      · exact absurd h (by simp [calculate_monitoring_target_uncertainty, ht, emptyTargetVerdict])
    · have hmono : (calculate_monitoring_target_uncertainty (some t0) (fun _ => kb2)
          (fun _ => web2) (fun _ => llm2) enable_web_search enable_llm).uncertainty_score
          ≤ (calculate_monitoring_target_uncertainty (some t0) (fun _ => kb) (fun _ => web)
            (fun _ => llm) enable_web_search enable_llm).uncertainty_score := by
        simp [calculate_monitoring_target_uncertainty, ht]
        linarith
      refine ⟨hmono, fun h => ?_⟩
      have hle : (calculate_monitoring_target_uncertainty (some t0) (fun _ => kb) (fun _ => web)
          (fun _ => llm) enable_web_search enable_llm).uncertainty_score ≤ 1/2 := by
        by_contra hgt
        push_neg at hgt
        have : (calculate_monitoring_target_uncertainty (some t0) (fun _ => kb) (fun _ => web)
            (fun _ => llm) enable_web_search enable_llm).needs_clarification = true := by
          simp [calculate_monitoring_target_uncertainty, ht, uncertainty_threshold,
            decide_eq_true_iff] at hgt ⊢
          exact hgt
        rw [this] at h
        exact absurd h (by simp)
      have hle2 : (calculate_monitoring_target_uncertainty (some t0) (fun _ => kb2)
          (fun _ => web2) (fun _ => llm2) enable_web_search enable_llm).uncertainty_score
          ≤ 1/2 := le_trans hmono hle
      simp [calculate_monitoring_target_uncertainty, ht, uncertainty_threshold,
        decide_eq_false_iff_not, not_lt] at hle2 ⊢
      exact hle2

/-- C7 witness: a concrete accept (all signals true) stays an accept when a
signal is raised from a run with kb false. -/
theorem c7_gate_deterministic_and_monotone_witness :
    (calculate_monitoring_target_uncertainty (some ("水质").data) (fun _ => true)
        (fun _ => true) (fun _ => true) true true).uncertainty_score
      ≤ (calculate_monitoring_target_uncertainty (some ("水质").data) (fun _ => false)
        (fun _ => true) (fun _ => true) true true).uncertainty_score ∧
    ((calculate_monitoring_target_uncertainty (some ("水质").data) (fun _ => false)
        (fun _ => true) (fun _ => true) true true).needs_clarification = false →
      (calculate_monitoring_target_uncertainty (some ("水质").data) (fun _ => true)
        (fun _ => true) (fun _ => true) true true).needs_clarification = false) :=
  (c7_gate_deterministic_and_monotone (some ("水质").data) false true true true true true
    true true (fun h => absurd h (by decide)) (fun h => h) (fun h => h)).2

/-! ## ResponseParser
Translated from `backend/src/graph/nodes/enhanced_parameter_clarification_node.py`,
`parse_user_response` / `_parse_response_by_rules` / `_check_skip_remaining`.
A pending-question dict is modelled by the fields the parser reads
(`parameter_key`, `parameter_name`, `options`); dicts of parsed parameters are
association lists with Python's insert-or-replace-in-place semantics.  The two
regex-based steps (the labelled-value patterns on lines 1737-1749 and the
per-kind extraction grammars of `_extract_param_value_from_response`) run
Python's `re` engine, so they enter the model as oracle functions from the
question and the utterance to an optional extracted value; both claims about
the parser are independent of what those oracles return.  The AI analysis of
`jiuzhou_manager.analyze_user_response` is an external LLM call, modelled as
an optional oracle result (`none` = the call raised). -/

/-- A closed option of a question: either a structured record with value,
label and optional description, or a bare string. -/
inductive QOption where
  | structured (value label : List Char) (descr : Option (List Char))
  | plain (s : List Char)
deriving Repr, DecidableEq

/-- The fields of a pending-question dict that the parser reads. -/
structure PendingQuestion where
  parameter_key : String
  parameter_name : List Char
  options : List QOption
deriving Repr, DecidableEq

/-- Python `d[k] = v` on a dict: replace in place or append. -/
def dictInsert : List (String × List Char) → String → List Char → List (String × List Char)
  | [], k, v => [(k, v)]
  | (k0, v0) :: rest, k, v =>
    if k0 = k then (k0, v) :: rest else (k0, v0) :: dictInsert rest k v

/-- Python `k in d` on a dict. -/
def dictContains (d : List (String × List Char)) (k : String) : Bool :=
  d.any (fun p => p.1 == k)

/-- The keys of a dict. -/
def dictKeys (d : List (String × List Char)) : List String :=
  d.map Prod.fst

/-- One option test of the exact-matching step (lines 1694-1706). -/
def matchOption (resp : List Char) : QOption → Option (List Char)
  | QOption.structured v l _ => if listSub v resp || listSub l resp then some v else none
  | QOption.plain s => if listSub s resp then some s else none

/-- First option of a question that matches the response (the inner
for-with-break of lines 1695-1706). -/
def matchFirstOption (resp : List Char) : List QOption → Option (List Char)
  | [] => none
  | o :: rest =>
    match matchOption resp o with
    | some v => some v
    | none => matchFirstOption resp rest

/-- The exact-option matching pass over all questions (lines 1690-1706). -/
def exactMatchPhase (resp : List Char) : List PendingQuestion →
    List (String × List Char) → List (String × List Char)
  | [], parsed => parsed
  | q :: rest, parsed =>
    let parsed :=
      if q.options ≠ [] then
        match matchFirstOption resp q.options with
        | some v => dictInsert parsed q.parameter_key v
        | none => parsed
      else parsed
    exactMatchPhase resp rest parsed

/-- The delimiter preference list of line 1721. -/
def responseDelimiters : List (List Char) :=
  [(" | ").data, ("|").data, ("，").data, (",").data, ("；").data, (";").data, ("\n").data]

/-- Lines 1722-1727: split on the first listed delimiter occurring in the
response, else keep the whole response as the single part. -/
def firstDelimiterSplit (resp : List Char) : List (List Char) :=
  match responseDelimiters.find? (fun d => listSub d resp) with
  | some d => splitAll d resp
  | none => [resp]

/-- Positional assignment of split parts to questions (lines 1731-1733);
called on the zip of the questions with the parts, which have equal length. -/
def assignPositional : List (String × List Char) → List (PendingQuestion × List Char) →
    List (String × List Char)
  | parsed, [] => parsed
  | parsed, (q, part) :: rest =>
    let parsed :=
      if dictContains parsed q.parameter_key then parsed
      else dictInsert parsed q.parameter_key (pyStrip part)
    assignPositional parsed rest

/-- The per-question fallback loop (lines 1713-1755).  `allQuestions` stays
the full pending list (used for the positional length test), while the first
list argument is the tail still to process. -/
def parseMainLoop (resp : List Char) (allQuestions : List PendingQuestion)
    (patternExtract extractFallback : PendingQuestion → List Char → Option (List Char)) :
    List PendingQuestion → List (String × List Char) → List (String × List Char)
  | [], parsed => parsed
  | q :: rest, parsed =>
    if dictContains parsed q.parameter_key then
      parseMainLoop resp allQuestions patternExtract extractFallback rest parsed
    else
      let parts := firstDelimiterSplit resp
      let parsed :=
        if parts.length = allQuestions.length then
          assignPositional parsed (allQuestions.zip parts)
        else
          match patternExtract q resp with
          | some v => dictInsert parsed q.parameter_key v
          | none =>
            match extractFallback q resp with
            | some v => if v ≠ [] then dictInsert parsed q.parameter_key v else parsed
            | none => parsed
      parseMainLoop resp allQuestions patternExtract extractFallback rest parsed

/-- The bare affirmatives rejected by the validation step (line 1763). -/
def bareAffirmatives : List (List Char) :=
  [("是").data, ("否").data, ("好").data, ("可以").data]

/-- The validation step (lines 1757-1765): drop entries whose stripped value
is shorter than 2 characters or a bare affirmative. -/
def validatePhase (parsed : List (String × List Char)) : List (String × List Char) :=
  parsed.filter (fun p =>
    !((pyStrip p.2).length < 2 || decide (pyStrip p.2 ∈ bareAffirmatives)))

/-- The explicit-skip terms of lines 1685-1686. -/
def parseSkipTerms : List (List Char) :=
  [("跳过技术参数").data, ("技术参数用默认").data, ("使用推荐参数").data, ("使用默认值").data]

/-- `_parse_response_by_rules` (lines 1679-1766). -/
def _parse_response_by_rules (resp : List Char) (questions : List PendingQuestion)
    (patternExtract extractFallback : PendingQuestion → List Char → Option (List Char)) :
    List (String × List Char) :=
  if parseSkipTerms.any (fun w => listSub w (pyLower resp)) then []
  else
    let parsed := exactMatchPhase resp questions []
    if parsed.length = questions.length then parsed
    else
      validatePhase
        (parseMainLoop resp questions patternExtract extractFallback questions parsed)

/-- The skip-intent phrase set of `_check_skip_remaining` (lines 1894-1898). -/
def skipPhrases : List (List Char) :=
  [("跳过").data, ("默认").data, ("推荐").data, ("自动").data, ("快速生成").data,
   ("不用问了").data, ("直接生成").data, ("都行").data, ("随便").data,
   ("跳过技术参数").data, ("技术参数用默认").data, ("使用推荐参数").data]

/-- `_check_skip_remaining` (lines 1892-1901). -/
def _check_skip_remaining (resp : List Char) : Bool :=
  skipPhrases.any (fun p => listSub p (pyLower resp))

/-- The dict returned by `jiuzhou_manager.analyze_user_response`: the model's
parameter assignments, passed through unfiltered, and the skip flag. -/
structure AIAnalysis where
  parsed_parameters : List (String × List Char)
  skip_remaining : Bool
deriving Repr, DecidableEq

/-- The result of `parse_user_response`. -/
structure ParseResult where
  parameters : List (String × List Char)
  skip_remaining : Bool
deriving Repr, DecidableEq

/-- `parse_user_response` (lines 1640-1677); `ai_analysis = none` models the
AI call raising, which falls back to the rule path. -/
def parse_user_response (ai_mode_enabled : Bool) (ai_analysis : Option AIAnalysis)
    (resp : List Char) (questions : List PendingQuestion)
    (patternExtract extractFallback : PendingQuestion → List Char → Option (List Char)) :
    ParseResult :=
  if ai_mode_enabled then
    match ai_analysis with
    | some a =>
      let parsed :=
        if a.parsed_parameters = [] then
          _parse_response_by_rules resp questions patternExtract extractFallback
        else a.parsed_parameters
      { parameters := parsed, skip_remaining := a.skip_remaining }
    | none =>
      { parameters := _parse_response_by_rules resp questions patternExtract extractFallback
        skip_remaining := _check_skip_remaining resp }
  else
    { parameters := _parse_response_by_rules resp questions patternExtract extractFallback
      skip_remaining := _check_skip_remaining resp }

lemma dictKeys_insert_eq (d : List (String × List Char)) (k : String) (v : List Char) :
    dictKeys (dictInsert d k v)
      = if dictContains d k then dictKeys d else dictKeys d ++ [k] := by
  induction d with
  | nil => simp [dictInsert, dictContains, dictKeys]
  | cons p rest ih =>
    cases p with
    | mk k0 v0 =>
      by_cases hk : k0 = k
      · simp [dictInsert, hk, dictContains, dictKeys]
      · have hne : (k0 == k) = false := by simp [hk]
        have hstep : dictInsert ((k0, v0) :: rest) k v = (k0, v0) :: dictInsert rest k v := by
          rw [dictInsert, if_neg hk]
        have hcond : dictContains ((k0, v0) :: rest) k = dictContains rest k := by
          simp [dictContains, List.any_cons, hne]
        have hkeys : ∀ (v1 : List Char) (l : List (String × List Char)),
            dictKeys ((k0, v1) :: l) = k0 :: dictKeys l := fun _ _ => rfl
        rw [hstep, hcond, hkeys, hkeys, ih]
        by_cases hc : dictContains rest k = true
        · rw [if_pos hc, if_pos hc]
        · rw [if_neg hc, if_neg hc]
          rfl

lemma dictKeys_insert {d : List (String × List Char)} {k k2 : String} {v : List Char}
    (h : k2 ∈ dictKeys (dictInsert d k v)) : k2 ∈ dictKeys d ∨ k2 = k := by
  rw [dictKeys_insert_eq] at h
  split at h
  · exact Or.inl h
  · rcases List.mem_append.mp h with h | h
    · exact Or.inl h
    · exact Or.inr (by simpa using h)

lemma exactMatchPhase_keys (resp : List Char) :
    ∀ (qs : List PendingQuestion) (parsed : List (String × List Char)) (k : String),
      k ∈ dictKeys (exactMatchPhase resp qs parsed) →
      k ∈ dictKeys parsed ∨ k ∈ qs.map PendingQuestion.parameter_key := by
  intro qs
  induction qs with
  | nil => intro parsed k h; exact Or.inl h
  | cons q rest ih =>
    intro parsed k h
    rw [exactMatchPhase] at h
    rcases ih _ k h with h2 | h2
    · by_cases hopt : q.options ≠ []
      · rw [if_pos hopt] at h2
        cases hm : matchFirstOption resp q.options with
        | none => rw [hm] at h2; exact Or.inl h2
        | some v =>
          rw [hm] at h2
          rcases dictKeys_insert h2 with h3 | h3
          · exact Or.inl h3
          · exact Or.inr (by simp [h3])
      · rw [if_neg hopt] at h2
        exact Or.inl h2
    · exact Or.inr (by simp [h2])

lemma assignPositional_keys :
    ∀ (pairs : List (PendingQuestion × List Char)) (parsed : List (String × List Char))
      (k : String), k ∈ dictKeys (assignPositional parsed pairs) →
      k ∈ dictKeys parsed ∨ k ∈ pairs.map (fun p => p.1.parameter_key) := by
  intro pairs
  induction pairs with
  | nil => intro parsed k h; exact Or.inl h
  | cons p rest ih =>
    intro parsed k h
    cases p with
    | mk q part =>
      rw [assignPositional] at h
      rcases ih _ k h with h2 | h2
      · by_cases hc : dictContains parsed q.parameter_key = true
        · rw [if_pos hc] at h2
          exact Or.inl h2
        · rw [if_neg hc] at h2
          rcases dictKeys_insert h2 with h3 | h3
          · exact Or.inl h3
          · exact Or.inr (by simp [h3])
      · exact Or.inr (by simp at h2 ⊢; exact Or.inr h2)

lemma parseMainLoop_keys (resp : List Char) (allQuestions : List PendingQuestion)
    (patternExtract extractFallback : PendingQuestion → List Char → Option (List Char)) :
    ∀ (qs : List PendingQuestion) (parsed : List (String × List Char)) (k : String),
      k ∈ dictKeys (parseMainLoop resp allQuestions patternExtract extractFallback qs parsed) →
      k ∈ dictKeys parsed ∨ k ∈ allQuestions.map PendingQuestion.parameter_key ∨
        k ∈ qs.map PendingQuestion.parameter_key := by
  intro qs
  induction qs with
  | nil => intro parsed k h; exact Or.inl h
  | cons q rest ih =>
    intro parsed k h
    rw [parseMainLoop] at h
    by_cases hc : dictContains parsed q.parameter_key = true
    · rw [if_pos hc] at h
      rcases ih _ k h with h2 | h2 | h2
      · exact Or.inl h2
      · exact Or.inr (Or.inl h2)
      · exact Or.inr (Or.inr (by simp [h2]))
    · rw [if_neg hc] at h
      rcases ih _ k h with h2 | h2 | h2
      · by_cases hlen : (firstDelimiterSplit resp).length = allQuestions.length
        · rw [if_pos hlen] at h2
          rcases assignPositional_keys _ _ _ h2 with h3 | h3
          · exact Or.inl h3
          · rcases List.mem_map.mp h3 with ⟨pr, hpr, hk⟩
            have hq := (List.of_mem_zip hpr).1
            exact Or.inr (Or.inl (List.mem_map.mpr ⟨pr.1, hq, hk⟩))
        · rw [if_neg hlen] at h2
          cases hpe : patternExtract q resp with
          | some v =>
            rw [hpe] at h2
            rcases dictKeys_insert h2 with h3 | h3
            · exact Or.inl h3
            · exact Or.inr (Or.inr (by simp [h3]))
          | none =>
            rw [hpe] at h2
            cases hef : extractFallback q resp with
            | some v =>
              rw [hef] at h2
              dsimp only at h2
              by_cases hv : v ≠ []
              · rw [if_pos hv] at h2
                rcases dictKeys_insert h2 with h3 | h3
                · exact Or.inl h3
                · exact Or.inr (Or.inr (by simp [h3]))
              · rw [if_neg hv] at h2
                exact Or.inl h2
            | none =>
              rw [hef] at h2
              exact Or.inl h2
      · exact Or.inr (Or.inl h2)
      · exact Or.inr (Or.inr (by simp [h2]))

lemma validatePhase_subset {parsed : List (String × List Char)} {p : String × List Char}
    (h : p ∈ validatePhase parsed) : p ∈ parsed :=
  (List.mem_filter.mp h).1

/-- C6 (amended): the rule-based parser only ever writes keys that are the
parameter_key of some pending question, and so does parse_user_response
whenever the AI analysis fails or yields no parameters (its fallback paths);
on the AI path the model's assignments are returned unfiltered, so the
original unconditional claim fails (see c6_unasked_key_counterexample). -/
theorem c6_parser_keys_amended (resp : List Char) (questions : List PendingQuestion)
    (patternExtract extractFallback : PendingQuestion → List Char → Option (List Char))
    (ai_mode_enabled : Bool) (ai_analysis : Option AIAnalysis)
    (hai : ai_analysis = none ∨ ∃ a, ai_analysis = some a ∧ a.parsed_parameters = []) :
    (∀ k ∈ dictKeys (_parse_response_by_rules resp questions patternExtract extractFallback),
      k ∈ questions.map PendingQuestion.parameter_key) ∧
    (∀ k ∈ dictKeys (parse_user_response ai_mode_enabled ai_analysis resp questions
        patternExtract extractFallback).parameters,
      k ∈ questions.map PendingQuestion.parameter_key) := by
  have hrules : ∀ k ∈ dictKeys (_parse_response_by_rules resp questions patternExtract
      extractFallback), k ∈ questions.map PendingQuestion.parameter_key := by
    intro k hk
    unfold _parse_response_by_rules at hk
    split at hk
    · simp [dictKeys] at hk
    · dsimp only at hk
      split at hk
      · rcases exactMatchPhase_keys resp questions [] k hk with h | h
        · simp [dictKeys] at h
        · exact h
      · have hk2 : k ∈ dictKeys (parseMainLoop resp questions patternExtract extractFallback
            questions (exactMatchPhase resp questions [])) := by
          rcases List.mem_map.mp hk with ⟨p, hp, hkp⟩
          exact List.mem_map.mpr ⟨p, validatePhase_subset hp, hkp⟩
        rcases parseMainLoop_keys resp questions patternExtract extractFallback questions _ k
            hk2 with h | h | h
        · rcases exactMatchPhase_keys resp questions [] k h with h2 | h2
          · simp [dictKeys] at h2
          · exact h2
        · exact h
        · exact h
  refine ⟨hrules, ?_⟩
  intro k hk
  unfold parse_user_response at hk
  rcases hai with hai | ⟨a, hai, hempty⟩ <;> subst hai
  · cases ai_mode_enabled
    · simp only [Bool.false_eq_true, if_false] at hk
      exact hrules k hk
    · simp only [if_true] at hk
      exact hrules k hk
  · cases ai_mode_enabled
    · simp only [Bool.false_eq_true, if_false] at hk
      exact hrules k hk
    · simp only [if_true] at hk
      rw [if_pos hempty] at hk
      exact hrules k hk

/-- C6 (counterexample): with the AI mode enabled (the constructor default),
parse_user_response returns the AI analysis's parsed_parameters unfiltered, so
a hallucinated key that matches no pending question is passed through. -/
theorem c6_unasked_key_counterexample :
    dictKeys (parse_user_response true
        (some { parsed_parameters := [(("foreign_key" : String), ("某值").data)]
                skip_remaining := false })
        ("水质").data
        [{ parameter_key := "monitoring_target", parameter_name := ("监测目标").data
           options := [] }]
        (fun _ _ => none) (fun _ _ => none)).parameters
      = ["foreign_key"] ∧
    ("foreign_key" : String) ∉
      ([({ parameter_key := "monitoring_target", parameter_name := ("监测目标").data
           options := [] } : PendingQuestion)].map PendingQuestion.parameter_key) := by
  constructor
  · rfl
  · decide

/-- C6 witness: a concrete fallback-path run only assigns asked keys. -/
theorem c6_parser_keys_amended_witness :
    ("observation_area" : String) ∈
      ([({ parameter_key := "observation_area", parameter_name := ("观测区域").data
           options := [] } : PendingQuestion)].map PendingQuestion.parameter_key) :=
  (c6_parser_keys_amended ("青海湖").data
    [{ parameter_key := "observation_area", parameter_name := ("观测区域").data
       options := [] }]
    (fun _ _ => none) (fun _ _ => none) true none (Or.inl rfl)).2
    "observation_area" (by decide)

lemma length_dropWhile_le (p : Char → Bool) (l : List Char) :
    (l.dropWhile p).length ≤ l.length := by
  induction l with
  | nil => simp
  | cons c rest ih =>
    rw [List.dropWhile]
    cases hp : p c
    · simp
    · simp only
      exact le_trans ih (Nat.le_succ _)

lemma pyStrip_length_le (s : List Char) : (pyStrip s).length ≤ s.length := by
  unfold pyStrip
  rw [List.length_reverse]
  calc ((s.dropWhile isPySpace).reverse.dropWhile isPySpace).length
      ≤ (s.dropWhile isPySpace).reverse.length := length_dropWhile_le _ _
    _ = (s.dropWhile isPySpace).length := List.length_reverse _
    _ ≤ s.length := length_dropWhile_le _ _

/-- C8 (amended): whenever the exact-option matching pass does not already
resolve every pending question (so the parser falls through to the validation
step on lines 1757-1765), no returned assignment has a value shorter than two
characters or equal to a bare affirmative.  On the early-return path where
exact matching resolves every question the validation is skipped and such
values can be returned (see c8_validation_counterexample). -/
theorem c8_validation_amended (resp : List Char) (questions : List PendingQuestion)
    (patternExtract extractFallback : PendingQuestion → List Char → Option (List Char))
    (h : (exactMatchPhase resp questions []).length ≠ questions.length) :
    ∀ (k : String) (v : List Char),
      (k, v) ∈ _parse_response_by_rules resp questions patternExtract extractFallback →
      2 ≤ v.length ∧ v ∉ bareAffirmatives := by
  intro k v hm
  unfold _parse_response_by_rules at hm
  split at hm
  · simp at hm
  · dsimp only at hm
    rw [if_neg h] at hm
    have hpred := (List.mem_filter.mp hm).2
    simp only [Bool.not_eq_true', Bool.or_eq_false_iff, decide_eq_false_iff_not,
      not_lt] at hpred
    obtain ⟨hlen, hmem⟩ := hpred
    refine ⟨le_trans hlen (pyStrip_length_le v), fun hv => hmem ?_⟩
    have hid : pyStrip v = v := by
      have : ∀ a ∈ bareAffirmatives, pyStrip a = a := by decide
      exact this v hv
    rw [hid]
    exact hv

/-- C8 (counterexample): the exact-option early return (line 1709-1710 of
enhanced_parameter_clarification_node.py) bypasses the validation step, so a
matched option value that is a one-character bare affirmative is returned. -/
theorem c8_validation_counterexample :
    _parse_response_by_rules ("好的").data
        [{ parameter_key := "k1", parameter_name := ("覆盖范围").data
           options := [QOption.plain ("好").data] }]
        (fun _ _ => none) (fun _ _ => none)
      = [(("k1" : String), ("好").data)] ∧
    (("好").data).length < 2 ∧ ("好").data ∈ bareAffirmatives := by
  refine ⟨rfl, by decide, by decide⟩

/-- C8 witness: a concrete run through the validation path keeps only an
acceptable value. -/
theorem c8_validation_amended_witness :
    2 ≤ (("每天1次").data).length ∧ ("每天1次").data ∉ bareAffirmatives :=
  c8_validation_amended ("每天1次").data
    [{ parameter_key := "k1", parameter_name := ("观测频率").data, options := [] }]
    (fun _ _ => none) (fun _ _ => none) (by decide) "k1" (("每天1次").data) (by decide)

/-! ## StagedParameterClarificationNode
Translated from `backend/src/graph/nodes/staged_parameter_clarification_node.py`
together with `should_skip_clarification`, `_is_new_requirement` and
`apply_smart_defaults` from `enhanced_parameter_clarification_node.py`.
The conversation state keeps the fields this controller reads and writes;
history records are reduced to their `stage` tags, and a pending question to
its `parameter_key`.  External effects enter as oracles: `unc` gives the
uncertainty calculator's needs_clarification verdict per parameter key (the
collaborator calls behind it are network-bound), `extractOracle` models the
LLM-driven `extract_existing_parameters`, and `paramConfig` tells which keys
`_get_param_config` resolves (truthy) in the parameters configuration; the
data file `constellation_parameters.json` is not part of the sources, so
`default_param_config` below reproduces `_get_default_parameters_config`,
the in-code fallback configuration.  Python dict values are truthy when the
stored string is non-empty. -/

/-- One entry of `COLLECTION_STAGES` (name omitted: never branched on). -/
structure StageInfo where
  params : List String
  required : Bool
  max_retries : Nat
deriving Repr, DecidableEq

/-- The `COLLECTION_STAGES` table (lines 14-46).  Python raises KeyError for
any other key; callers only index the five stages, for which this is exact. -/
def COLLECTION_STAGES (stage : String) : StageInfo :=
  if stage = "purpose" then ⟨["monitoring_target"], true, 2⟩
  else if stage = "time" then ⟨["observation_frequency", "monitoring_period"], true, 2⟩
  else if stage = "location_area" then ⟨["observation_area"], true, 2⟩
  else if stage = "location_range" then ⟨["coverage_range"], true, 2⟩
  else if stage = "technical" then
    ⟨["spatial_resolution", "spectral_bands", "analysis_requirements",
      "output_format", "accuracy_requirements"], false, 1⟩
  else ⟨[], true, 2⟩

/-- The fixed stage order of `get_next_collection_stage` (line 54). -/
def stage_order : List String :=
  ["purpose", "time", "location_area", "location_range", "technical"]

/-- Python `d.get(k)`. -/
def dictGet (d : List (String × List Char)) (k : String) : Option (List Char) :=
  (d.find? (fun p => p.1 == k)).map Prod.snd

/-- Python `k in d and d[k]` (key present with a truthy value). -/
def dictTruthy (d : List (String × List Char)) (k : String) : Bool :=
  match dictGet d k with
  | some v => !v.isEmpty
  | none => false

/-- A per-stage retry counter lookup, Python `d.get(k, 0)`. -/
def retryGet (d : List (String × Nat)) (k : String) : Nat :=
  ((d.find? (fun p => p.1 == k)).map Prod.snd).getD 0

/-- Insert-or-replace on the retry-counter dict. -/
def retryInsert : List (String × Nat) → String → Nat → List (String × Nat)
  | [], k, v => [(k, v)]
  | (k0, v0) :: rest, k, v =>
    if k0 = k then (k0, v) :: rest else (k0, v0) :: retryInsert rest k v

/-- `_user_wants_stage` (lines 333-346): true for the technical stage and true
for every other stage; the state argument is never read. -/
def user_wants_stage (stage : String) : Bool :=
  if stage = "technical" then true else true

/-- The scan of `get_next_collection_stage` over the stages after the current
one (lines 69-79). -/
def findNextStage (extracted : List (String × List Char)) : List String → Option String
  | [] => none
  | s :: rest =>
    let info := COLLECTION_STAGES s
    let missing := info.params.filter (fun p => !dictContains extracted p)
    if !missing.isEmpty && (info.required || user_wants_stage s) then some s
    else findNextStage extracted rest

/-- `get_next_collection_stage` (lines 48-79). -/
def get_next_collection_stage (current_stage : String)
    (extracted : List (String × List Char)) : Option String :=
  if current_stage = "not_started" then some "purpose"
  else if current_stage = "completed" then none
  else
    match stage_order.indexOf? current_stage with
    | none => some "purpose"
    | some i => findNextStage extracted (stage_order.drop (i + 1))

/-- `should_retry_stage` (lines 130-149); an uncertainty result is reduced to
the needs_clarification flag per parameter key, the only field read. -/
def should_retry_stage (uncertainty_results : List (String × Bool)) (stage : String)
    (retry_count : Nat) : Bool :=
  if retry_count ≥ (COLLECTION_STAGES stage).max_retries then false
  else uncertainty_results.any (fun r => r.2)

/-- `check_stage_uncertainty` (lines 81-128): which parameters of the current
stage are scored, each verdict supplied by the calculator oracle `unc`. -/
def check_stage_uncertainty (stage : String) (extracted : List (String × List Char))
    (unc : String → Bool) : List (String × Bool) :=
  if stage = "purpose" then
    if dictContains extracted "monitoring_target" then
      [("monitoring_target", unc "monitoring_target")]
    else []
  else if stage = "time" then
    [("observation_frequency", unc "observation_frequency"),
     ("monitoring_period", unc "monitoring_period")]
  else if stage = "location_area" then
    if dictContains extracted "observation_area" then
      [("observation_area", unc "observation_area")]
    else []
  else if stage = "location_range" then
    if dictContains extracted "coverage_range" then
      [("coverage_range", unc "coverage_range")]
    else []
  else []

/-- The parameter keys of `_get_default_parameters_config` (lines 109-271 of
enhanced_parameter_clarification_node.py), the fallback configuration used
when the external constellation_parameters.json cannot be loaded. -/
def default_param_config_keys : List String :=
  ["observation_area", "coverage_type", "observation_frequency", "monitoring_period",
   "time_criticality", "spatial_resolution", "spectral_bands", "weather_dependency",
   "monitoring_target", "analysis_requirements", "accuracy_requirements",
   "output_format", "data_processing_level", "budget_constraint", "data_security"]

/-- `_get_param_config` truthiness against the default configuration. -/
def default_param_config (k : String) : Bool :=
  default_param_config_keys.contains k

/-- The base technical parameters (line 159). -/
def base_tech_params : List String :=
  ["spatial_resolution", "analysis_requirements", "output_format"]

/-- `target_specific_params` (lines 162-169), in insertion order. -/
def target_specific_params : List (List Char × List String) :=
  [(("水质").data, ["spectral_bands", "accuracy_requirements", "analysis_requirements"]),
   (("农业").data, ["spatial_resolution", "spectral_bands", "monitoring_season"]),
   (("城市").data, ["spatial_resolution", "analysis_requirements", "data_processing_level"]),
   (("灾害").data, ["time_criticality", "weather_dependency", "spatial_resolution"]),
   (("植被").data, ["spectral_bands", "spatial_resolution", "analysis_requirements"]),
   (("环境").data, ["spectral_bands", "analysis_requirements", "accuracy_requirements"])]

/-- `_get_relevant_technical_params_for_stage` (lines 151-186). -/
def get_relevant_technical_params_for_stage (monitoring_target : List Char)
    (existing : List (String × List Char)) : List String :=
  let selected := base_tech_params
  let selected :=
    match target_specific_params.find? (fun tp => listSub tp.1 monitoring_target) with
    | some tp =>
      tp.2.foldl (fun (sel : List String) p =>
        if !sel.contains p && !dictContains existing p then sel ++ [p] else sel) selected
    | none => selected
  selected.filter (fun p => !dictContains existing p)

/-- `generate_stage_questions` (lines 188-305), reduced to the parameter keys
of the questions it emits: a question is built for each collected parameter
whose configuration resolves, on the batch path and the per-parameter path
alike; the generated options and prompt text do not affect which questions
exist. -/
def generate_stage_questions (paramConfig : String → Bool) (stage : String)
    (extracted : List (String × List Char)) (uncertainty_results : List (String × Bool))
    (retry_count : Nat) : List String :=
  let params_to_collect :=
    if stage = "technical" then
      (get_relevant_technical_params_for_stage
        ((dictGet extracted "monitoring_target").getD []) extracted).take 4
    else
      (COLLECTION_STAGES stage).params.filter (fun p =>
        if retry_count > 0 && !uncertainty_results.isEmpty then
          (((uncertainty_results.find? (fun r => r.1 == p)).map Prod.snd).getD false)
        else !dictContains extracted p)
  if params_to_collect.isEmpty then []
  else params_to_collect.filter paramConfig

/-- One conversation message. -/
structure Message where
  role : String
  content : List Char
deriving Repr, DecidableEq

/-- The slice of WorkflowState that the staged clarification controller reads
and writes (state.py lines 99-101 plus the metadata entries it uses). -/
structure ClarState where
  messages : List Message
  parameter_collection_stage : String
  extracted_parameters : List (String × List Char)
  stage_retry_count : List (String × Nat)
  parameter_collection_history : List String
  clarification_completed : Bool
  clarification_skipped : Bool
  awaiting_clarification : Bool
  pending_questions : List String
deriving Repr, DecidableEq

/-- `set_collection_stage`. -/
def setStage (st : ClarState) (s : String) : ClarState :=
  { st with parameter_collection_stage := s }

/-- The user messages of the log. -/
def user_messages (msgs : List Message) : List Message :=
  msgs.filter (fun m => m.role == "user")

/-- The second-to-last element of a list (Python `l[-2]` for length ≥ 2). -/
def secondLast (l : List Message) : Option Message :=
  (l.drop (l.length - 2)).head?

/-- The assistant-question markers of `_is_new_requirement` (line 1486). -/
def clarification_markers : List (List Char) :=
  [("请提供").data, ("需要了解").data, ("参数收集").data, ("请回答").data,
   ("选择或输入").data]

/-- `new_requirement_keywords` (lines 1490-1496); the last entry is used by
the code as a plain substring, not as a regex. -/
def new_requirement_keywords : List (List Char) :=
  [("我想监测").data, ("我需要监测").data, ("我想要监测").data,
   ("帮我设计").data, ("换一个").data, ("重新设计").data,
   ("另外").data, ("还想").data, ("改为监测").data,
   ("请为我规划").data, ("请规划").data, ("请帮我监测").data,
   ("监测.*的.*情况").data]

/-- `_is_new_requirement` (lines 1468-1506). -/
def is_new_requirement (st : ClarState) : Bool :=
  let ums := user_messages st.messages
  if ums.length < 2 then false
  else
    let latest := pyLower (((ums.getLast?).map Message.content).getD [])
    if st.awaiting_clarification then false
    else
      let prevIsClarification :=
        if st.messages.length ≥ 2 then
          match secondLast st.messages with
          | some prev =>
            prev.role == "assistant" &&
              clarification_markers.any (fun kw => listSub kw prev.content)
          | none => false
        else false
      if prevIsClarification then false
      else
        let previous := pyLower (((secondLast ums).map Message.content).getD [])
        if (listSub ("柬埔寨").data latest && !listSub ("柬埔寨").data previous) ||
            (listSub ("农业").data latest && listSub ("水质").data previous) then true
        else new_requirement_keywords.any (fun kw => listSub kw latest)

/-- The explicit-skip keywords of `should_skip_clarification` (line 1400). -/
def skip_keywords : List (List Char) :=
  [("直接生成方案").data, ("跳过所有问题").data, ("使用默认参数").data]

/-- The stage list `should_skip_clarification` checks progress against
(line 1410) — note it names "location", which no stage value ever equals. -/
def skip_stage_order : List String := ["purpose", "time", "location", "technical"]

/-- The essential parameters of `should_skip_clarification` (lines 1433-1438). -/
def essential_params : List String :=
  ["monitoring_target", "observation_area", "observation_frequency", "monitoring_period"]

/-- `should_skip_clarification` (lines 1394-1466).  It can mutate the state
(line 1424-1425 resets the completed flag and the collected parameters when a
new requirement is detected), so it returns the updated state as well. -/
def should_skip_clarification (st : ClarState) : Bool × ClarState :=
  let ums := user_messages st.messages
  let explicitSkip :=
    match ums.getLast? with
    | some m => skip_keywords.any (fun kw => pyStrip (pyLower m.content) == kw)
    | none => false
  if explicitSkip then (true, st)
  else
    let current := st.parameter_collection_stage
    let notDone :=
      if current ≠ "completed" && current ≠ "not_started" then
        match skip_stage_order.indexOf? current with
        | some i => i < skip_stage_order.length - 1
        | none => false
      else false
    if notDone then (false, st)
    else if st.clarification_completed then
      if is_new_requirement st then
        (false, { st with clarification_completed := false, extracted_parameters := [] })
      else (true, st)
    else
      let missing := essential_params.filter (fun p => !dictTruthy st.extracted_parameters p)
      if !missing.isEmpty then (false, st)
      else
        let has_technical := st.parameter_collection_history.contains "technical"
        if !has_technical && current ≠ "technical" then (false, st)
        else (true, st)

/-- `apply_smart_defaults` (lines 1508-1547).  The default configuration has
no smart_defaults section, so `defaults` is empty and the technical-parameter
loop of lines 1542-1545 adds nothing; only the coverage_range default of
lines 1515-1528 acts. -/
def apply_smart_defaults (params : List (String × List Char)) : List (String × List Char) :=
  if !dictContains params "coverage_range" && dictContains params "observation_area" then
    let area := (dictGet params "observation_area").getD []
    let v :=
      if listSub ("湖").data area || listSub ("水库").data area then ("whole_lake").data
      else if listSub ("市").data area then ("urban_area").data
      else if listSub ("县").data area || listSub ("区").data area then ("regional").data
      else if listSub ("省").data area ||
          [("柬埔寨").data, ("越南").data, ("泰国").data].any (fun c => listSub c area) then
        ("large").data
      else ("regional").data
    dictInsert params "coverage_range" v
  else params

/-- The result of one `process_staged_parameter_clarification` call: the new
state and the parameter keys of the questions pushed to the callback. -/
structure ProcessResult where
  state : ClarState
  emitted_questions : List String
deriving Repr, DecidableEq

/-- Lines 484-495: mark the clarification skipped and completed and apply the
smart defaults. -/
def skipComplete (st : ClarState) : ProcessResult :=
  { state := { st with
      clarification_skipped := true
      clarification_completed := true
      parameter_collection_stage := "completed"
      extracted_parameters := apply_smart_defaults st.extracted_parameters }
    emitted_questions := [] }

/-- Lines 546-592: generate the current stage's questions; with none, advance
once more (recursing) or complete; otherwise store and emit them. -/
def processEmitTail (paramConfig : String → Bool) (recurse : ClarState → ProcessResult)
    (st : ClarState) (uncertainty_results : List (String × Bool)) : ProcessResult :=
  let stage := st.parameter_collection_stage
  let questions := generate_stage_questions paramConfig stage st.extracted_parameters
    uncertainty_results (retryGet st.stage_retry_count stage)
  if questions.isEmpty then
    match get_next_collection_stage stage st.extracted_parameters with
    | some ns => recurse (setStage st ns)
    | none =>
      { state := { st with
          parameter_collection_stage := "completed"
          clarification_completed := true }
        emitted_questions := [] }
  else
    { state := { st with pending_questions := questions, awaiting_clarification := true }
      emitted_questions := questions }

/-- The body of `process_staged_parameter_clarification` (lines 442-592), with
the recursive calls of lines 482 and 553 abstracted as `recurse`. -/
def processBody (paramConfig : String → Bool) (unc : String → Bool)
    (extractOracle : ClarState → List (String × List Char))
    (recurse : ClarState → ProcessResult) (st0 : ClarState) : ProcessResult :=
  let st := if st0.parameter_collection_stage = "not_started" then setStage st0 "purpose" else st0
  let current := st.parameter_collection_stage
  if current = "completed" then { state := st, emitted_questions := [] }
  else
    match should_skip_clarification st with
    | (true, st1) =>
      let has_all := skip_stage_order.all (fun s => st1.parameter_collection_history.contains s)
      if !has_all then
        match get_next_collection_stage current st1.extracted_parameters with
        | some ns => recurse (setStage st1 ns)
        | none => skipComplete st1
      else skipComplete st1
    | (false, st1) =>
      let st2 :=
        if st1.extracted_parameters = [] ∧ st1.parameter_collection_stage = "purpose" then
          { st1 with extracted_parameters := extractOracle st1 }
        else st1
      let existing := st2.extracted_parameters
      let uncertainty_results := check_stage_uncertainty current existing unc
      let retry_count := retryGet st2.stage_retry_count current
      if !uncertainty_results.isEmpty &&
          should_retry_stage uncertainty_results current retry_count then
        processEmitTail paramConfig recurse
          { st2 with
            stage_retry_count :=
              retryInsert st2.stage_retry_count current
                (retryGet st2.stage_retry_count current + 1) }
          uncertainty_results
      else
        match get_next_collection_stage current existing with
        | some ns => processEmitTail paramConfig recurse (setStage st2 ns) []
        | none =>
          { state := { st2 with
              parameter_collection_stage := "completed"
              clarification_completed := true
              extracted_parameters := apply_smart_defaults existing }
            emitted_questions := [] }

/-- `process_staged_parameter_clarification`, fuelled: the recursion always
advances to a strictly later stage, so any fuel of at least 6 behaves as the
unbounded Python recursion. -/
def process_staged_parameter_clarification (paramConfig : String → Bool)
    (unc : String → Bool) (extractOracle : ClarState → List (String × List Char)) :
    Nat → ClarState → ProcessResult
  | 0, st => { state := st, emitted_questions := [] }
  | fuel + 1, st =>
    processBody paramConfig unc extractOracle
      (process_staged_parameter_clarification paramConfig unc extractOracle fuel) st

lemma findNextStage_mem {extracted : List (String × List Char)} :
    ∀ {l : List String} {s : String}, findNextStage extracted l = some s → s ∈ l := by
  intro l
  induction l with
  | nil => intro s h; exact absurd h (by simp [findNextStage])
  | cons s0 rest ih =>
    intro s h
    rw [findNextStage] at h
    split at h
    · rw [Option.some_inj] at h
      exact h ▸ List.mem_cons_self _ _
    · exact List.mem_cons_of_mem _ (ih h)

lemma stage_order_cases {s : String} (h : s ∈ stage_order) :
    s = "purpose" ∨ s = "time" ∨ s = "location_area" ∨ s = "location_range" ∨
      s = "technical" := by
  simpa [stage_order] using h

lemma get_next_strictly_later {current s : String} (hcur : current ∈ stage_order)
    (extracted : List (String × List Char))
    (hs : get_next_collection_stage current extracted = some s) :
    s ∈ stage_order ∧ stage_order.indexOf current < stage_order.indexOf s := by
  rcases stage_order_cases hcur with h | h | h | h | h <;> subst h
  · replace hs : findNextStage extracted
        ["time", "location_area", "location_range", "technical"] = some s := hs
    have hm := findNextStage_mem hs
    fin_cases hm <;> exact ⟨by decide, by decide⟩
  · replace hs : findNextStage extracted
        ["location_area", "location_range", "technical"] = some s := hs
    have hm := findNextStage_mem hs
    fin_cases hm <;> exact ⟨by decide, by decide⟩
  · replace hs : findNextStage extracted ["location_range", "technical"] = some s := hs
    have hm := findNextStage_mem hs
    fin_cases hm <;> exact ⟨by decide, by decide⟩
  · replace hs : findNextStage extracted ["technical"] = some s := hs
    have hm := findNextStage_mem hs
    fin_cases hm <;> exact ⟨by decide, by decide⟩
  · replace hs : findNextStage extracted [] = some s := hs
    exact absurd hs (by simp [findNextStage])

/-- C5: from every non-terminal stage in the fixed order [purpose, time,
location_area, location_range, technical], get_next_collection_stage returns
either none or a stage strictly later in that order, for every set of
collected parameters — so advancing only ever moves the stage forward. -/
theorem c5_next_stage_strictly_later (current : String) (hcur : current ∈ stage_order)
    (extracted : List (String × List Char)) :
    get_next_collection_stage current extracted = none ∨
      ∃ s, get_next_collection_stage current extracted = some s ∧ s ∈ stage_order ∧
        stage_order.indexOf current < stage_order.indexOf s := by
  cases hs : get_next_collection_stage current extracted with
  | none => exact Or.inl rfl
  | some s =>
    obtain ⟨hmem, hlt⟩ := get_next_strictly_later hcur extracted hs
    exact Or.inr ⟨s, rfl, hmem, hlt⟩

/-- C5 witness: from the purpose stage with nothing collected, the next stage
is time, strictly later in the order. -/
theorem c5_next_stage_strictly_later_witness :
    get_next_collection_stage "purpose" [] = none ∨
      ∃ s, get_next_collection_stage "purpose" [] = some s ∧ s ∈ stage_order ∧
        stage_order.indexOf "purpose" < stage_order.indexOf s :=
  c5_next_stage_strictly_later "purpose" (by decide) []

/-- The stage either reached completed or moved (weakly) forward in the order:
the induction invariant of the controller's recursion. -/
def StageGE (st : ClarState) (r : ProcessResult) : Prop :=
  r.state.parameter_collection_stage = "completed" ∨
    (r.state.parameter_collection_stage ∈ stage_order ∧
      stage_order.indexOf st.parameter_collection_stage ≤
        stage_order.indexOf r.state.parameter_collection_stage)

lemma processEmitTail_stage_ge (paramConfig : String → Bool)
    (recurse : ClarState → ProcessResult) (st : ClarState)
    (uncR : List (String × Bool))
    (hst : st.parameter_collection_stage ∈ stage_order)
    (hrec : ∀ st2, st2.parameter_collection_stage ∈ stage_order →
      StageGE st2 (recurse st2)) :
    StageGE st (processEmitTail paramConfig recurse st uncR) := by
  unfold processEmitTail
  dsimp only
  split
  · split
    · rename_i ns hns
      obtain ⟨hmem, hlt⟩ := get_next_strictly_later hst _ hns
      rcases hrec (setStage st ns) hmem with h | ⟨h1, h2⟩
      · exact Or.inl h
      · exact Or.inr ⟨h1, le_trans (le_of_lt hlt) h2⟩
    · exact Or.inl rfl
  · exact Or.inr ⟨hst, le_refl _⟩

lemma should_skip_snd_eq (st : ClarState) :
    (should_skip_clarification st).2 = st ∨
      (st.clarification_completed = true ∧ is_new_requirement st = true ∧
        (should_skip_clarification st).1 = false ∧
        (should_skip_clarification st).2
          = { st with clarification_completed := false, extracted_parameters := [] }) := by
  unfold should_skip_clarification
  dsimp only
  repeat' split
  all_goals first
    | exact Or.inl rfl
    | exact Or.inr ⟨by assumption, by assumption, rfl, rfl⟩

lemma should_skip_fst_true_snd {st : ClarState}
    (h : (should_skip_clarification st).1 = true) :
    (should_skip_clarification st).2 = st := by
  rcases should_skip_snd_eq st with h2 | ⟨_, _, hfalse, _⟩
  · exact h2
  · rw [h] at hfalse
    exact absurd hfalse (by simp)

lemma should_skip_snd_fields (st : ClarState) :
    (should_skip_clarification st).2.parameter_collection_stage
        = st.parameter_collection_stage ∧
      (should_skip_clarification st).2.stage_retry_count = st.stage_retry_count ∧
      (should_skip_clarification st).2.parameter_collection_history
        = st.parameter_collection_history := by
  rcases should_skip_snd_eq st with h2 | ⟨_, _, _, h2⟩ <;> rw [h2] <;> exact ⟨rfl, rfl, rfl⟩

lemma StageGE_emitTail_same (paramConfig : String → Bool)
    (recurse : ClarState → ProcessResult) (st stA : ClarState)
    (uncR : List (String × Bool))
    (hstA : stA.parameter_collection_stage = st.parameter_collection_stage)
    (hst : st.parameter_collection_stage ∈ stage_order)
    (hrec : ∀ st2, st2.parameter_collection_stage ∈ stage_order →
      StageGE st2 (recurse st2)) :
    StageGE st (processEmitTail paramConfig recurse stA uncR) := by
  have hge := processEmitTail_stage_ge paramConfig recurse stA uncR
    (by rw [hstA]; exact hst) hrec
  rcases hge with h | ⟨h1, h2⟩
  · exact Or.inl h
  · rw [hstA] at h2
    exact Or.inr ⟨h1, h2⟩

lemma StageGE_emitTail_advance (paramConfig : String → Bool)
    (recurse : ClarState → ProcessResult) (st stA : ClarState) (ns : String)
    (uncR : List (String × Bool))
    (hstA : stA.parameter_collection_stage = ns)
    (hmem : ns ∈ stage_order)
    (hlt : stage_order.indexOf st.parameter_collection_stage < stage_order.indexOf ns)
    (hrec : ∀ st2, st2.parameter_collection_stage ∈ stage_order →
      StageGE st2 (recurse st2)) :
    StageGE st (processEmitTail paramConfig recurse stA uncR) := by
  have hge := processEmitTail_stage_ge paramConfig recurse stA uncR
    (by rw [hstA]; exact hmem) hrec
  rcases hge with h | ⟨h1, h2⟩
  · exact Or.inl h
  · rw [hstA] at h2
    exact Or.inr ⟨h1, le_trans (le_of_lt hlt) h2⟩

lemma processBody_stage_ge (paramConfig : String → Bool) (unc : String → Bool)
    (extractOracle : ClarState → List (String × List Char))
    (recurse : ClarState → ProcessResult) (st : ClarState)
    (hst : st.parameter_collection_stage ∈ stage_order)
    (hrec : ∀ st2, st2.parameter_collection_stage ∈ stage_order →
      StageGE st2 (recurse st2)) :
    StageGE st (processBody paramConfig unc extractOracle recurse st) := by
  have hns : ¬ st.parameter_collection_stage = "not_started" := by
    rcases stage_order_cases hst with h | h | h | h | h <;> simp [h]
  have hnc : ¬ st.parameter_collection_stage = "completed" := by
    rcases stage_order_cases hst with h | h | h | h | h <;> simp [h]
  unfold processBody
  dsimp only
  rw [if_neg hns, if_neg hnc]
  cases hss : should_skip_clarification st with
  | mk b st1 =>
    have hst1 : st1.parameter_collection_stage = st.parameter_collection_stage := by
      have := (should_skip_snd_fields st).1
      rw [hss] at this
      exact this
    cases b with
    | true =>
      dsimp only
      split
      · split
        · rename_i ns hnext
          obtain ⟨hmem, hlt⟩ := get_next_strictly_later hst _ hnext
          rcases hrec (setStage st1 ns) hmem with h | ⟨h1, h2⟩
          · exact Or.inl h
          · exact Or.inr ⟨h1, le_trans (le_of_lt hlt) h2⟩
        · exact Or.inl rfl
      · exact Or.inl rfl
    | false =>
      dsimp only
      split
      all_goals
        split
      case _ =>
        exact StageGE_emitTail_same paramConfig recurse st _ _ hst1 hst hrec
      case _ =>
        split
        · rename_i ns hnext
          obtain ⟨hmem, hlt⟩ := get_next_strictly_later hst _ hnext
          exact StageGE_emitTail_advance paramConfig recurse st _ ns ([]) rfl hmem hlt hrec
        · exact Or.inl rfl
      case _ =>
        exact StageGE_emitTail_same paramConfig recurse st _ _ hst1 hst hrec
      case _ =>
        split
        · rename_i ns hnext
          obtain ⟨hmem, hlt⟩ := get_next_strictly_later hst _ hnext
          exact StageGE_emitTail_advance paramConfig recurse st _ ns ([]) rfl hmem hlt hrec
        · exact Or.inl rfl

lemma process_stage_ge (paramConfig : String → Bool) (unc : String → Bool)
    (extractOracle : ClarState → List (String × List Char)) :
    ∀ (fuel : Nat) (st : ClarState), st.parameter_collection_stage ∈ stage_order →
      StageGE st (process_staged_parameter_clarification paramConfig unc extractOracle
        fuel st) := by
  intro fuel
  induction fuel with
  | zero => intro st hst; exact Or.inr ⟨hst, le_refl _⟩
  | succ fuel ih =>
    intro st hst
    exact processBody_stage_ge paramConfig unc extractOracle _ st hst
      (fun st2 hst2 => ih st2 hst2)

lemma should_retry_false_of_max {uncR : List (String × Bool)} {stage : String} {rc : Nat}
    (h : (COLLECTION_STAGES stage).max_retries ≤ rc) :
    should_retry_stage uncR stage rc = false := by
  simp [should_retry_stage, h]

/-- The strict variant of StageGE: the controller left the given stage. -/
def StageGT (st : ClarState) (r : ProcessResult) : Prop :=
  r.state.parameter_collection_stage = "completed" ∨
    (r.state.parameter_collection_stage ∈ stage_order ∧
      stage_order.indexOf st.parameter_collection_stage <
        stage_order.indexOf r.state.parameter_collection_stage)

lemma StageGT_of_advance {st stA : ClarState} {r : ProcessResult} {ns : String}
    (hstA : stA.parameter_collection_stage = ns) (hlt :
      stage_order.indexOf st.parameter_collection_stage < stage_order.indexOf ns)
    (h : StageGE stA r) : StageGT st r := by
  rcases h with h | ⟨h1, h2⟩
  · exact Or.inl h
  · rw [hstA] at h2
    exact Or.inr ⟨h1, lt_of_lt_of_le hlt h2⟩

lemma StageGT_emitTail_advance (paramConfig : String → Bool)
    (recurse : ClarState → ProcessResult) (st stA : ClarState) (ns : String)
    (uncR : List (String × Bool))
    (hstA : stA.parameter_collection_stage = ns) (hmem : ns ∈ stage_order)
    (hlt : stage_order.indexOf st.parameter_collection_stage < stage_order.indexOf ns)
    (hrec : ∀ st2, st2.parameter_collection_stage ∈ stage_order →
      StageGE st2 (recurse st2)) :
    StageGT st (processEmitTail paramConfig recurse stA uncR) :=
  StageGT_of_advance hstA hlt
    (processEmitTail_stage_ge paramConfig recurse stA uncR (by rw [hstA]; exact hmem) hrec)

/-- C3: once a stage's retry counter has reached that stage's configured
max_retries, should_retry_stage returns false for every uncertainty result,
and the next controller call leaves the stage: it lands on completed or on a
stage strictly later in the fixed order, never re-asking the same stage. -/
theorem c3_max_retries_forces_advance (paramConfig unc : String → Bool)
    (extractOracle : ClarState → List (String × List Char))
    (fuel : Nat) (st : ClarState)
    (hfuel : 1 ≤ fuel)
    (hst : st.parameter_collection_stage ∈ stage_order)
    (hretry : (COLLECTION_STAGES st.parameter_collection_stage).max_retries ≤
      retryGet st.stage_retry_count st.parameter_collection_stage) :
    (∀ uncR : List (String × Bool),
      should_retry_stage uncR st.parameter_collection_stage
        (retryGet st.stage_retry_count st.parameter_collection_stage) = false) ∧
    ((process_staged_parameter_clarification paramConfig unc extractOracle fuel
        st).state.parameter_collection_stage = "completed" ∨
      ((process_staged_parameter_clarification paramConfig unc extractOracle fuel
          st).state.parameter_collection_stage ∈ stage_order ∧
        stage_order.indexOf st.parameter_collection_stage <
          stage_order.indexOf (process_staged_parameter_clarification paramConfig unc
            extractOracle fuel st).state.parameter_collection_stage)) := by
  refine ⟨fun uncR => should_retry_false_of_max hretry, ?_⟩
  cases fuel with
  | zero => exact absurd hfuel (by simp)
  | succ f =>
    show StageGT st (processBody paramConfig unc extractOracle
      (process_staged_parameter_clarification paramConfig unc extractOracle f) st)
    have hrec : ∀ st2 : ClarState, st2.parameter_collection_stage ∈ stage_order →
        StageGE st2 (process_staged_parameter_clarification paramConfig unc
          extractOracle f st2) :=
      fun st2 h2 => process_stage_ge paramConfig unc extractOracle f st2 h2
    have hns : ¬ st.parameter_collection_stage = "not_started" := by
      rcases stage_order_cases hst with h | h | h | h | h <;> simp [h]
    have hnc : ¬ st.parameter_collection_stage = "completed" := by
      rcases stage_order_cases hst with h | h | h | h | h <;> simp [h]
    unfold processBody
    dsimp only
    rw [if_neg hns, if_neg hnc]
    cases hss : should_skip_clarification st with
    | mk b st1 =>
      have hfields := should_skip_snd_fields st
      rw [hss] at hfields
      obtain ⟨hst1, hretry1, _⟩ := hfields
      cases b with
      | true =>
        dsimp only
        split
        · split
          · rename_i ns hnext
            obtain ⟨hmem, hlt⟩ := get_next_strictly_later hst _ hnext
            exact @StageGT_of_advance st (setStage st1 ns) _ ns rfl hlt
              (hrec (setStage st1 ns) hmem)
          · exact Or.inl rfl
        · exact Or.inl rfl
      | false =>
        dsimp only
        split
        all_goals
          split
        case _ =>
          -- re-extract taken; the retry branch is impossible at max retries
          exfalso
          rename_i hcond
          have h2 := (Bool.and_eq_true_iff.mp hcond).2
          try dsimp only at h2
          rw [hretry1] at h2
          rw [should_retry_false_of_max hretry] at h2
          exact absurd h2 (by simp)
        case _ =>
          split
          · rename_i ns hnext
            obtain ⟨hmem, hlt⟩ := get_next_strictly_later hst _ hnext
            exact StageGT_emitTail_advance paramConfig _ st _ ns ([]) rfl hmem hlt hrec
          · exact Or.inl rfl
        case _ =>
          exfalso
          rename_i hcond
          have h2 := (Bool.and_eq_true_iff.mp hcond).2
          try dsimp only at h2
          rw [hretry1] at h2
          rw [should_retry_false_of_max hretry] at h2
          exact absurd h2 (by simp)
        case _ =>
          split
          · rename_i ns hnext
            obtain ⟨hmem, hlt⟩ := get_next_strictly_later hst _ hnext
            exact StageGT_emitTail_advance paramConfig _ st _ ns ([]) rfl hmem hlt hrec
          · exact Or.inl rfl

lemma dictTruthy_dictContains {d : List (String × List Char)} {k : String}
    (h : dictTruthy d k = true) : dictContains d k = true := by
  unfold dictTruthy dictGet at h
  unfold dictContains
  cases hf : List.find? (fun p => p.1 == k) d with
  | none => rw [hf] at h; simp at h
  | some p =>
    have hmem := List.mem_of_find?_eq_some hf
    have hpred := List.find?_some hf
    exact List.any_eq_true.mpr ⟨p, hmem, hpred⟩

lemma findNextStage_none_of_present {ex : List (String × List Char)} :
    ∀ {l : List String},
      (∀ s ∈ l, ∀ p ∈ (COLLECTION_STAGES s).params, dictContains ex p = true) →
      findNextStage ex l = none := by
  intro l
  induction l with
  | nil => intro _; rfl
  | cons s rest ih =>
    intro h
    rw [findNextStage]
    have hmiss : (COLLECTION_STAGES s).params.filter (fun p => !dictContains ex p) = [] := by
      rw [List.filter_eq_nil]
      intro p hp
      simp [h s (List.mem_cons_self _ _) p hp]
    try dsimp only
    rw [hmiss]
    simp only [List.isEmpty_nil, Bool.not_true, Bool.false_and, Bool.false_eq_true, if_false]
    exact ih (fun s2 hs2 => h s2 (List.mem_cons_of_mem _ hs2))

lemma get_next_none_of_all_present {ex : List (String × List Char)}
    (h : ∀ s ∈ stage_order, ∀ p ∈ (COLLECTION_STAGES s).params, dictContains ex p = true)
    {cur : String} (hcur : cur ∈ stage_order) :
    get_next_collection_stage cur ex = none := by
  have hsub : ∀ (l : List String), (∀ s ∈ l, s ∈ stage_order) → findNextStage ex l = none :=
    fun l hl => findNextStage_none_of_present (fun s hs p hp => h s (hl s hs) p hp)
  rcases stage_order_cases hcur with hc | hc | hc | hc | hc <;> subst hc
  · exact hsub ["time", "location_area", "location_range", "technical"]
      (by intro s hs; fin_cases hs <;> decide)
  · exact hsub ["location_area", "location_range", "technical"]
      (by intro s hs; fin_cases hs <;> decide)
  · exact hsub ["location_range", "technical"] (by intro s hs; fin_cases hs <;> decide)
  · exact hsub ["technical"] (by intro s hs; fin_cases hs <;> decide)
  · exact hsub [] (by intro s hs; cases hs)

lemma check_stage_uncertainty_any_false {stage : String} {ex : List (String × List Char)}
    {unc : String → Bool} (hunc : ∀ p, unc p = false) :
    (check_stage_uncertainty stage ex unc).any (fun r => r.2) = false := by
  unfold check_stage_uncertainty
  repeat' split
  all_goals simp [hunc]

lemma should_retry_false_of_no_high {uncR : List (String × Bool)} {stage : String}
    {rc : Nat} (h : uncR.any (fun r => r.2) = false) :
    should_retry_stage uncR stage rc = false := by
  unfold should_retry_stage
  split
  · rfl
  · exact h

lemma processBody_not_started (paramConfig unc : String → Bool)
    (extractOracle : ClarState → List (String × List Char))
    (recurse : ClarState → ProcessResult) (st0 : ClarState)
    (h : st0.parameter_collection_stage = "not_started") :
    processBody paramConfig unc extractOracle recurse st0
      = processBody paramConfig unc extractOracle recurse (setStage st0 "purpose") := by
  unfold processBody
  dsimp only
  rw [if_pos h, if_neg (by simp [setStage])]
  rfl

lemma c4_core (paramConfig unc : String → Bool)
    (extractOracle : ClarState → List (String × List Char))
    (recurse : ClarState → ProcessResult) (st : ClarState)
    (hst : st.parameter_collection_stage ∈ stage_order)
    (hall : ∀ s ∈ stage_order, ∀ p ∈ (COLLECTION_STAGES s).params,
      dictTruthy st.extracted_parameters p = true)
    (hunc : ∀ p, unc p = false)
    (hnoreset : st.clarification_completed = false ∨ is_new_requirement st = false) :
    (processBody paramConfig unc extractOracle recurse
        st).state.parameter_collection_stage = "completed" ∧
      (processBody paramConfig unc extractOracle recurse st).emitted_questions = [] := by
  have hcontains : ∀ s ∈ stage_order, ∀ p ∈ (COLLECTION_STAGES s).params,
      dictContains st.extracted_parameters p = true :=
    fun s hs p hp => dictTruthy_dictContains (hall s hs p hp)
  have hnone := get_next_none_of_all_present hcontains hst
  have hns : ¬ st.parameter_collection_stage = "not_started" := by
    rcases stage_order_cases hst with h | h | h | h | h <;> simp [h]
  have hnc : ¬ st.parameter_collection_stage = "completed" := by
    rcases stage_order_cases hst with h | h | h | h | h <;> simp [h]
  unfold processBody
  dsimp only
  rw [if_neg hns, if_neg hnc]
  cases hss : should_skip_clarification st with
  | mk b st1 =>
    have hsnd : st1 = st := by
      rcases should_skip_snd_eq st with h2 | ⟨hcomp, hnew, _, _⟩
      · rw [hss] at h2; exact h2
      · rcases hnoreset with h3 | h3
        · rw [hcomp] at h3; exact absurd h3 (by simp)
        · rw [hnew] at h3; exact absurd h3 (by simp)
    subst hsnd
    cases b with
    | true =>
      dsimp only
      split
      · rw [hnone]
        exact ⟨rfl, rfl⟩
      · exact ⟨rfl, rfl⟩
    | false =>
      dsimp only
      have hmt : dictTruthy st1.extracted_parameters "monitoring_target" = true :=
        hall "purpose" (by decide) "monitoring_target" (by decide)
      have hne : ¬ (st1.extracted_parameters = [] ∧
          st1.parameter_collection_stage = "purpose") := by
        rintro ⟨h1, _⟩
        rw [h1] at hmt
        exact absurd hmt (by simp [dictTruthy, dictGet])
      rw [if_neg hne]
      have hsr : should_retry_stage
          (check_stage_uncertainty st1.parameter_collection_stage
            st1.extracted_parameters unc)
          st1.parameter_collection_stage
          (retryGet st1.stage_retry_count st1.parameter_collection_stage) = false :=
        should_retry_false_of_no_high (check_stage_uncertainty_any_false hunc)
      rw [if_neg (by rw [hsr]; simp)]
      rw [hnone]
      exact ⟨rfl, rfl⟩

/-- C4 (amended): from every valid stage, if every parameter of every stage —
including the technical stage's optional ones — is collected with a non-empty
value, every verdict is accepted, and the state is not in the new-task reset
condition, one controller call reaches completed and emits no questions. -/
theorem c4_all_params_completed (paramConfig unc : String → Bool)
    (extractOracle : ClarState → List (String × List Char)) (fuel : Nat) (st : ClarState)
    (hfuel : 1 ≤ fuel)
    (hstage : st.parameter_collection_stage = "not_started" ∨
      st.parameter_collection_stage = "completed" ∨
      st.parameter_collection_stage ∈ stage_order)
    (hall : ∀ s ∈ stage_order, ∀ p ∈ (COLLECTION_STAGES s).params,
      dictTruthy st.extracted_parameters p = true)
    (hunc : ∀ p, unc p = false)
    (hnoreset : st.clarification_completed = false ∨ is_new_requirement st = false) :
    (process_staged_parameter_clarification paramConfig unc extractOracle fuel
        st).state.parameter_collection_stage = "completed" ∧
      (process_staged_parameter_clarification paramConfig unc extractOracle fuel
        st).emitted_questions = [] := by
  cases fuel with
  | zero => exact absurd hfuel (by simp)
  | succ f =>
    show (processBody paramConfig unc extractOracle
        (process_staged_parameter_clarification paramConfig unc extractOracle f)
        st).state.parameter_collection_stage = "completed" ∧
      (processBody paramConfig unc extractOracle
        (process_staged_parameter_clarification paramConfig unc extractOracle f)
        st).emitted_questions = []
    rcases hstage with hc | hc | hmem
    · rw [processBody_not_started paramConfig unc extractOracle _ st hc]
      exact c4_core paramConfig unc extractOracle _ (setStage st "purpose")
        (by simp [setStage, stage_order]) hall hunc hnoreset
    · unfold processBody
      dsimp only
      rw [if_neg (show ¬ st.parameter_collection_stage = "not_started" by rw [hc]; decide),
        if_pos hc]
      exact ⟨hc, rfl⟩
    · exact c4_core paramConfig unc extractOracle _ st hmem hall hunc hnoreset

/-- The C4 counterexample state: a conversation at the purpose stage with
every mandatory parameter of every required stage collected and nothing else. -/
def c4CexState : ClarState :=
  { messages := [{ role := "user", content := ("我需要一个虚拟星座方案").data }]
    parameter_collection_stage := "purpose"
    extracted_parameters :=
      [("monitoring_target", ("水质变化").data),
       ("observation_frequency", ("每天1次").data),
       ("monitoring_period", ("3个月").data),
       ("observation_area", ("青海湖").data),
       ("coverage_range", ("100平方公里").data)]
    stage_retry_count := []
    parameter_collection_history := []
    clarification_completed := false
    clarification_skipped := false
    awaiting_clarification := false
    pending_questions := [] }

/-- C4 (counterexample): with every mandatory parameter of every required
stage present (the technical stage's parameters are all optional) and every
verdict accepted, a single controller call does not complete: it advances to
the always-visited technical stage and emits its questions. -/
theorem c4_counterexample :
    (∀ s ∈ stage_order, (COLLECTION_STAGES s).required = true →
      ∀ p ∈ (COLLECTION_STAGES s).params, dictTruthy c4CexState.extracted_parameters p = true) ∧
    (process_staged_parameter_clarification default_param_config (fun _ => false)
        (fun _ => []) 6 c4CexState).state.parameter_collection_stage = "technical" ∧
    ¬ (process_staged_parameter_clarification default_param_config (fun _ => false)
        (fun _ => []) 6 c4CexState).state.parameter_collection_stage = "completed" ∧
    ¬ (process_staged_parameter_clarification default_param_config (fun _ => false)
        (fun _ => []) 6 c4CexState).emitted_questions = [] := by
  refine ⟨by decide, ?_, ?_, ?_⟩
  · rfl
  · decide
  · decide

/-- The C4 witness state: every stage parameter, technical ones included. -/
def c4FullState : ClarState :=
  { c4CexState with extracted_parameters := c4CexState.extracted_parameters ++
      [("spatial_resolution", ("10米").data),
       ("spectral_bands", ("多光谱").data),
       ("analysis_requirements", ("变化检测").data),
       ("output_format", ("专题图").data),
       ("accuracy_requirements", ("业务级").data)] }

/-- C4 witness: with every stage parameter present and accepted a single call
completes silently. -/
theorem c4_all_params_completed_witness :
    (process_staged_parameter_clarification default_param_config (fun _ => false)
        (fun _ => []) 6 c4FullState).state.parameter_collection_stage = "completed" ∧
      (process_staged_parameter_clarification default_param_config (fun _ => false)
        (fun _ => []) 6 c4FullState).emitted_questions = [] :=
  c4_all_params_completed default_param_config (fun _ => false) (fun _ => []) 6 c4FullState
    (by decide) (Or.inr (Or.inr (by decide))) (by decide) (fun _ => rfl) (Or.inl rfl)

/-- The C3 witness state: the purpose stage at its maximum retry count, with a
collected monitoring target that still scores as needing clarification. -/
def c3WitState : ClarState :=
  { messages := [{ role := "user", content := ("我想了解水质情况").data }]
    parameter_collection_stage := "purpose"
    extracted_parameters := [("monitoring_target", ("东西").data)]
    stage_retry_count := [("purpose", 2)]
    parameter_collection_history := []
    clarification_completed := false
    clarification_skipped := false
    awaiting_clarification := false
    pending_questions := [] }

/-- C3 witness: at max retries the purpose stage is not retried even though
its parameter still needs clarification, and the call moves past it. -/
theorem c3_max_retries_forces_advance_witness :
    should_retry_stage [("monitoring_target", true)] "purpose"
        (retryGet c3WitState.stage_retry_count "purpose") = false ∧
      ((process_staged_parameter_clarification default_param_config (fun _ => true)
          (fun _ => []) 6 c3WitState).state.parameter_collection_stage = "completed" ∨
        ((process_staged_parameter_clarification default_param_config (fun _ => true)
            (fun _ => []) 6 c3WitState).state.parameter_collection_stage ∈ stage_order ∧
          stage_order.indexOf c3WitState.parameter_collection_stage <
            stage_order.indexOf (process_staged_parameter_clarification default_param_config
              (fun _ => true) (fun _ => []) 6
              c3WitState).state.parameter_collection_stage)) :=
  ⟨(c3_max_retries_forces_advance default_param_config (fun _ => true) (fun _ => []) 6
      c3WitState (by decide) (by decide) (by decide)).1 [("monitoring_target", true)],
   (c3_max_retries_forces_advance default_param_config (fun _ => true) (fun _ => []) 6
      c3WitState (by decide) (by decide) (by decide)).2⟩
